import Mathlib

/-
Verification development for the `grafiek_engine` dataflow-graph engine.

The definitions below are a shallow embedding of the engine core:
the value/type system (src/grafiek_engine/src/value.rs), slots and
signatures (src/grafiek_engine/src/registry/), nodes
(src/grafiek_engine/src/node.rs), the GPU resource pool
(src/grafiek_engine/src/gpu_pool.rs), the undo/redo history
(src/grafiek_engine/src/history.rs), the built-in operators
(src/grafiek_engine/src/ops/, including the shader-template machinery of
ops/graphics/tweak_shader_template.rs behind ops/graphics/shade.rs) and the
engine itself (src/grafiek_engine/src/engine.rs).

Modelling conventions:
  * `f32` payloads are modelled as `ℤ`: every value a claim exercises is a
    small integer (0, 3, 4, 5, 7, positions), on which `f32` addition,
    subtraction, multiplication, min/max/abs and equality coincide with the
    integer ones; `powf`, `log` and division, which no claim exercises, are
    kept as explicit abstractions.
  * `i32`/`u32`/`u64` are modelled as `Int`/`Nat`; no claim exercises
    overflow.
  * Rust methods taking `&mut self` become state-passing functions; fallible
    methods return `Except Error _` next to the (possibly partially
    mutated) state, mirroring the call-site early returns of the source.
  * Closure arguments (`FnOnce(&SlotDef, ValueMut) -> T`) are modelled as
    `SlotDef → Value → Value` functions: a `ValueMut` view can mutate the
    payload but never change the variant, which hypotheses state where
    needed.
  * GPU objects are modelled by their observable data: a pool entry keeps
    the texture size and its owner tag.
-/

/-! ## Value and type system (src/grafiek_engine/src/value.rs,
     src/grafiek_engine/src/registry/consts.rs) -/

inductive TextureFormat where
  | RGBAu8
  | RGBAu16
  | RGBAF32
  | BGRA8
deriving DecidableEq, Repr

/-- Texture handle as used by engine.rs / gpu_pool.rs / registry/consts.rs:
an optional pool id plus width, height and format. -/
structure TextureHandle where
  id : Option Nat
  width : Nat
  height : Nat
  fmt : TextureFormat
deriving DecidableEq, Repr

/-- Mirrors `GrafiekString`: a string together with an explicit dirty bit. -/
structure GrafiekString where
  inner : String
  dirty : Bool
deriving DecidableEq, Repr

inductive Value where
  | I32 (v : Int)
  | F32 (v : ℤ)
  | Texture (h : TextureHandle)
  | String (s : GrafiekString)
  | Null
deriving DecidableEq, Repr

inductive ValueType where
  | I32
  | F32
  | Texture
  | String
  | Any
deriving DecidableEq, Repr, Fintype

def Value.discriminant : Value → ValueType
  | .I32 _ => .I32
  | .F32 _ => .F32
  | .Texture _ => .Texture
  | .String _ => .String
  | .Null => .Any

/-- Mirrors `ValueType::default_value`. `TextureHandle` and `GrafiekString`
take their `Default` values. -/
def ValueType.default_value : ValueType → Value
  | .I32 => .I32 0
  | .F32 => .F32 0
  | .Texture => .Texture { id := none, width := 0, height := 0, fmt := .RGBAu8 }
  | .String => .String { inner := "", dirty := false }
  | .Any => .Null

/-- Mirrors `ValueType::can_cast_to` (value.rs lines 277-287). -/
def ValueType.can_cast_to : ValueType → ValueType → Bool
  | _, .Any => true
  | .Any, _ => true
  | a, b =>
    if a = b then true
    else match a, b with
      | .I32, .F32 => true
      | .F32, .I32 => true
      | _, _ => false

/-- Mirrors `f32::trunc` followed by `as i32`: truncation toward zero, the
identity on the integral values of the model. -/
def f32_trunc_to_i32 (q : ℤ) : Int := q

/-- Mirrors `Value::cast` (value.rs lines 289-320). -/
def Value.cast (v : Value) (target : ValueType) : Option Value :=
  if v matches .Null then none
  else if ¬ v.discriminant.can_cast_to target then none
  else some (match v, target with
    | v, .Any => v
    | .I32 i, .F32 => .F32 i
    | .F32 f, .I32 => .I32 (f32_trunc_to_i32 f)
    | v, _ => v)

/-- Mirrors the `Value::can_cast_to` wrapper (value.rs lines 313-319). -/
def Value.can_cast_to (v : Value) (ty : ValueType) : Bool :=
  if v matches .Null then false
  else v.discriminant.can_cast_to ty

/-- Mirrors `ValueCheckpoint`: copy variants store the payload, clone
variants (String) store nothing. -/
inductive ValueCheckpoint where
  | I32 (v : Int)
  | F32 (v : ℤ)
  | Texture (h : TextureHandle)
  | String
  | Null
deriving DecidableEq, Repr

def Value.checkpoint : Value → ValueCheckpoint
  | .I32 v => .I32 v
  | .F32 v => .F32 v
  | .Texture h => .Texture h
  | .String _ => .String
  | .Null => .Null

/-- Mirrors `Value::changed_since`: returns whether the value changed and the
value with its string dirty flag cleared (the source clears the flag through
`&mut self`). -/
def Value.changed_since (v : Value) (c : ValueCheckpoint) : Bool × Value :=
  match v, c with
  | .I32 a, .I32 b => (a ≠ b, .I32 a)
  | .F32 a, .F32 b => (a ≠ b, .F32 a)
  | .Texture a, .Texture b => (a ≠ b, .Texture a)
  | .String s, .String => (s.dirty, .String { s with dirty := false })
  | .Null, .Null => (false, .Null)
  | v, _ => (true, v)

example : ValueType.I32.can_cast_to .F32 = true := by decide
example : ValueType.Texture.can_cast_to .String = false := by decide
example : Value.Null.cast .Any = none := by decide

/-! ## Slots and signatures (src/grafiek_engine/src/registry/slot.rs,
     src/grafiek_engine/src/registry/signature.rs) -/

structure CommonMetadata where
  tooltip : Option String
  interactive : Bool
  enabled : Bool
  visible : Bool
  on_node_body : Bool
deriving DecidableEq, Repr

def CommonMetadata.default : CommonMetadata :=
  { tooltip := none, interactive := true, enabled := true, visible := true,
    on_node_body := false }

structure FloatRange where
  min : ℤ
  max : ℤ
  step : ℤ
deriving DecidableEq, Repr

structure IntRange where
  min : Int
  max : Int
  step : Int
deriving DecidableEq, Repr

structure IntEnum where
  options : List (String × Int)
deriving DecidableEq, Repr

structure TextureMeta where
  preview : Bool
  allow_file : Bool
deriving DecidableEq, Repr

inductive StringKind where
  | Plain
  | Glsl
  | Rune
  | Json
deriving DecidableEq, Repr

structure StringMeta where
  kind : StringKind
  multi_line : Bool
deriving DecidableEq, Repr

inductive ExtendedMetadata where
  | None
  | FloatRangeMeta (r : FloatRange)
  | IntRangeMeta (r : IntRange)
  | IntEnumMeta (e : IntEnum)
  | TextureExt (t : TextureMeta)
  | StringExt (s : StringMeta)
  | Custom (bytes : List Nat)
deriving DecidableEq, Repr

structure SlotDef where
  value_type : ValueType
  name : String
  extended : ExtendedMetadata
  common : CommonMetadata
  default_override : Option Value
deriving DecidableEq, Repr

/-- Mirrors `SlotDef::default_value`: the override if set, otherwise the
type default. -/
def SlotDef.default_value (s : SlotDef) : Value :=
  s.default_override.getD s.value_type.default_value

def SlotDef.on_node_body (s : SlotDef) : Bool := s.common.on_node_body

/-- Helper matching `SlotBuilder::new(...).build()` with no extras. -/
def mkSlot (ty : ValueType) (name : String) : SlotDef :=
  { value_type := ty, name := name, extended := .None,
    common := CommonMetadata.default, default_override := none }

structure SignatureRegistery where
  inputs : List SlotDef
  outputs : List SlotDef
  config : List SlotDef
deriving DecidableEq, Repr

def SignatureRegistery.empty : SignatureRegistery :=
  { inputs := [], outputs := [], config := [] }

def SignatureRegistery.input (r : SignatureRegistery) (i : Nat) : Option SlotDef :=
  r.inputs.get? i

def SignatureRegistery.output (r : SignatureRegistery) (i : Nat) : Option SlotDef :=
  r.outputs.get? i

def SignatureRegistery.configSlot (r : SignatureRegistery) (i : Nat) : Option SlotDef :=
  r.config.get? i

def SignatureRegistery.input_count (r : SignatureRegistery) : Nat := r.inputs.length
def SignatureRegistery.output_count (r : SignatureRegistery) : Nat := r.outputs.length
def SignatureRegistery.config_count (r : SignatureRegistery) : Nat := r.config.length

def SignatureRegistery.clear_outputs (r : SignatureRegistery) : SignatureRegistery :=
  { r with outputs := [] }

def SignatureRegistery.clear (_r : SignatureRegistery) : SignatureRegistery :=
  SignatureRegistery.empty

/-! ## Errors (src/grafiek_engine/src/error.rs).
    Payloads irrelevant to the claims (io, script diagnostics) are kept as
    plain strings. -/

deriving instance DecidableEq for Except

inductive Error where
  | UnknownOperationType (s : String)
  | DuplicateSlotName (name : String) (list : String)
  | DuplicateOperationType (lib op : String)
  | NodeNotFound (s : String)
  | NoPort (i : Nat)
  | NoOutputSlot (i : Nat)
  | NoInputSlot (i : Nat)
  | IncompatibleTypes (from_slot to_slot : Nat)
  | CreatesLoop
  | EdgeNotFound (from_slot to_slot : Nat)
  | NotInputNode
  | InvalidEdge (f t : Nat)
  | Serialization (s : String)
  | Deserialization (s : String)
  | Io (s : String)
  | ValueErr (s : String)
  | InputHasConnection
  | Script (s : String)
deriving DecidableEq, Repr

/-- Mirrors `SignatureRegistery::validate_unique_names` including its scan
order (first duplicate in inputs, then outputs, then config). -/
def find_duplicate (slots : List SlotDef) : Option String :=
  (List.range slots.length).findSome? fun i =>
    match slots.get? i with
    | some s => if (slots.take i).any (fun t => t.name = s.name) then some s.name else none
    | none => none

def SignatureRegistery.validate_unique_names (r : SignatureRegistery) :
    Except Error Unit := do
  match find_duplicate r.inputs with
  | some n => throw (Error.DuplicateSlotName n "inputs")
  | none => pure ()
  match find_duplicate r.outputs with
  | some n => throw (Error.DuplicateSlotName n "outputs")
  | none => pure ()
  match find_duplicate r.config with
  | some n => throw (Error.DuplicateSlotName n "config")
  | none => pure ()

/-! ## Records, mutations, events, history
     (src/grafiek_engine/src/node.rs, src/grafiek_engine/src/history.rs).
     `NodeIndex` is modelled as `Nat`. -/

structure OpPath where
  library : String
  operator : String
deriving DecidableEq, Repr

/-- Serializable record of a node's state (node.rs `NodeRecord`). -/
structure NodeRecord where
  id : Nat
  op_path : OpPath
  label : Option String
  position : ℤ × ℤ
  input_values : List Value
  config_values : List Value
deriving DecidableEq, Repr

def NodeRecord.new (id : Nat) (op_path : OpPath) : NodeRecord :=
  { id := id, op_path := op_path, label := none, position := (0, 0),
    input_values := [], config_values := [] }

structure GraphError where
  node : Option Nat
  message : String
deriving DecidableEq, Repr

inductive Event where
  | ErrorsChanged (errors : List GraphError)
  | ErrorsCleared
  | ExecutionStarted
  | ExecutionCompleted
  | NodeExecuted (node : Nat)
  | GraphDirtied
deriving DecidableEq, Repr

inductive Mutation where
  | CreateNode (idx : Nat) (record : NodeRecord)
  | DeleteNode (idx : Nat) (record : NodeRecord)
  | Connect (from_node from_slot to_node to_slot : Nat)
  | Disconnect (from_node from_slot to_node to_slot : Nat)
  | SetConfig (node slot : Nat) (old_value new_value : Value)
  | SetInput (node slot : Nat) (old_value new_value : Value)
  | MoveNode (node : Nat) (old_position new_position : ℤ × ℤ)
  | SetLabel (node : Nat) (old_label new_label : Option String)
deriving DecidableEq, Repr

inductive Message where
  | mutation (m : Mutation)
  | event (e : Event)
deriving DecidableEq, Repr

inductive CoalesceTarget where
  | NodeSlot (node slot : Nat) (is_config : Bool)
  | NodePosition (node : Nat)
  | NoTarget
deriving DecidableEq, Repr

/-- Mirrors `Mutation::coalesce_target`. -/
def Mutation.coalesce_target : Mutation → CoalesceTarget
  | .SetInput node slot _ _ => .NodeSlot node slot false
  | .SetConfig node slot _ _ => .NodeSlot node slot true
  | .MoveNode node _ _ => .NodePosition node
  | _ => .NoTarget

/-- Mirrors `Mutation::dirties_graph`. -/
def Mutation.dirties_graph : Mutation → Bool
  | .Connect .. | .Disconnect .. | .DeleteNode .. | .SetConfig .. | .SetInput .. => true
  | .CreateNode .. | .MoveNode .. | .SetLabel .. => false

/-- Mirrors `Mutation::inverse`. -/
def Mutation.inverse : Mutation → Mutation
  | .CreateNode idx record => .DeleteNode idx record
  | .DeleteNode idx record => .CreateNode idx record
  | .Connect fn fs tn ts => .Disconnect fn fs tn ts
  | .Disconnect fn fs tn ts => .Connect fn fs tn ts
  | .SetConfig node slot o n => .SetConfig node slot n o
  | .SetInput node slot o n => .SetInput node slot n o
  | .MoveNode node o n => .MoveNode node n o
  | .SetLabel node o n => .SetLabel node n o

structure History where
  undo_stack : List Mutation
  redo_stack : List Mutation
  max_size : Nat
deriving DecidableEq, Repr

def History.new (max_size : Nat) : History :=
  { undo_stack := [], redo_stack := [], max_size := max_size }

/-- Mirrors `History::default` (`Self::new(100)`). -/
def History.default : History := History.new 100

/-- Mirrors `History::try_coalesce`: mutates the last undo entry in place
when targets match, returning the updated stack on success. -/
def History.try_coalesce (h : History) (mutation : Mutation) : Option History :=
  match h.undo_stack.getLast? with
  | none => none
  | some last =>
    if last.coalesce_target = CoalesceTarget.NoTarget then none
    else if last.coalesce_target ≠ mutation.coalesce_target then none
    else
      let replace : Option Mutation :=
        match last, mutation with
        | .SetInput node slot o _, .SetInput _ _ _ new_value =>
          some (Mutation.SetInput node slot o new_value)
        | .SetConfig node slot o _, .SetConfig _ _ _ new_value =>
          some (Mutation.SetConfig node slot o new_value)
        | .MoveNode node o _, .MoveNode _ _ new_position =>
          some (Mutation.MoveNode node o new_position)
        | _, _ => none
      match replace with
      | some upd => some { h with undo_stack := h.undo_stack.dropLast ++ [upd] }
      | none => none

/-- Mirrors `History::trim`: drop oldest entries while over `max_size`. -/
def History.trim (h : History) : History :=
  { h with undo_stack := h.undo_stack.drop (h.undo_stack.length - h.max_size) }

/-- Mirrors `History::push`. -/
def History.push (h : History) (mutation : Mutation) : History :=
  match h.try_coalesce mutation with
  | some h => h
  | none =>
    History.trim { h with undo_stack := h.undo_stack ++ [mutation], redo_stack := [] }

/-- Mirrors `History::undo`: pops, moves to redo, returns the inverse. -/
def History.undo (h : History) : Option Mutation × History :=
  match h.undo_stack.getLast? with
  | none => (none, h)
  | some m =>
    (some m.inverse,
     { h with undo_stack := h.undo_stack.dropLast, redo_stack := h.redo_stack ++ [m] })

/-- Mirrors `History::redo`. -/
def History.redo (h : History) : Option Mutation × History :=
  match h.redo_stack.getLast? with
  | none => (none, h)
  | some m =>
    (some m,
     { h with redo_stack := h.redo_stack.dropLast, undo_stack := h.undo_stack ++ [m] })

def History.can_undo (h : History) : Bool := ¬ h.undo_stack.isEmpty
def History.can_redo (h : History) : Bool := ¬ h.redo_stack.isEmpty

/-! ## Operations (src/grafiek_engine/src/ops/). The `Operation` trait object
     becomes a closed sum over the operators `Engine::init` registers. -/

/-- System texture handle `SPECK` (registry/consts.rs): 1x1 black. -/
def SPECK : TextureHandle := { id := some 0, width := 1, height := 1, fmt := .RGBAu8 }

def FLECK : TextureHandle := { id := some 1, width := 1, height := 1, fmt := .RGBAu8 }

def TRANSPARENT_SPECK : TextureHandle :=
  { id := some 2, width := 1, height := 1, fmt := .RGBAu8 }

def CHECK : TextureHandle := { id := some 3, width := 2, height := 2, fmt := .RGBAu8 }

/-- Count of reserved system texture ids (`SYSTEM_TEXTURE_COUNT`); the pool
issues fresh ids from here on. -/
def SYSTEM_TEXTURE_COUNT : Nat := 4

inductive ArithOp where
  | Add
  | Subtract
  | Multiply
  | Power
  | Log
  | Divide
  | Min
  | Max
  | Abs
deriving DecidableEq, Repr

/-- Integer discriminants of `ArithOp` (`Add = 0`, the rest consecutive). -/
def ArithOp.toInt : ArithOp → Int
  | .Add => 0
  | .Subtract => 1
  | .Multiply => 2
  | .Power => 3
  | .Log => 4
  | .Divide => 5
  | .Min => 6
  | .Max => 7
  | .Abs => 8

inductive InputType where
  | Float
  | Int
  | Texture
deriving DecidableEq, Repr

def InputType.toInt : InputType → ℤ
  | .Float => 0
  | .Int => 1
  | .Texture => 2

/-- Mirrors the derived `Extract` impl for `EnumSchema` enums: match the
`i32` against each variant discriminant, otherwise `InvalidEnum`. -/
def extract_arith_op (v : Value) : Except Error ArithOp :=
  match v with
  | .I32 i =>
    if i = 0 then pure .Add
    else if i = 1 then pure .Subtract
    else if i = 2 then pure .Multiply
    else if i = 3 then pure .Power
    else if i = 4 then pure .Log
    else if i = 5 then pure .Divide
    else if i = 6 then pure .Min
    else if i = 7 then pure .Max
    else if i = 8 then pure .Abs
    else throw (Error.ValueErr "InvalidEnum")
  | _ => throw (Error.ValueErr "TypeMismatch")

def extract_input_type (v : Value) : Except Error InputType :=
  match v with
  | .I32 i =>
    if i = 0 then pure .Float
    else if i = 1 then pure .Int
    else if i = 2 then pure .Texture
    else throw (Error.ValueErr "InvalidEnum")
  | _ => throw (Error.ValueErr "TypeMismatch")

/-- Mirrors `InputsExt::extract::<f32>` (the `InputsExt`/`Extract` helpers are
declared by the engine crate; extraction fails on an absent index or on a
variant mismatch, per the value-extraction errors of error.rs/value.rs). -/
def extract_f32 (values : List Value) (idx : Nat) : Except Error ℤ :=
  match values.get? idx with
  | some (.F32 v) => pure v
  | some _ => throw (Error.ValueErr "TypeMismatch")
  | none => throw (Error.ValueErr "Index")

def extract_i32 (values : List Value) (idx : Nat) : Except Error Int :=
  match values.get? idx with
  | some (.I32 v) => pure v
  | some _ => throw (Error.ValueErr "TypeMismatch")
  | none => throw (Error.ValueErr "Index")

/-- Mirrors `outputs.extract::<f32>(idx)` followed by assignment: the output
slot must currently hold the matching variant. -/
def write_f32 (values : List Value) (idx : Nat) (v : ℤ) : Except Error (List Value) :=
  match values.get? idx with
  | some (.F32 _) => pure (values.set idx (.F32 v))
  | some _ => throw (Error.ValueErr "TypeMismatch")
  | none => throw (Error.ValueErr "Index")

def write_i32 (values : List Value) (idx : Nat) (v : Int) : Except Error (List Value) :=
  match values.get? idx with
  | some (.I32 _) => pure (values.set idx (.I32 v))
  | some _ => throw (Error.ValueErr "TypeMismatch")
  | none => throw (Error.ValueErr "Index")

def write_texture (values : List Value) (idx : Nat) (h : TextureHandle) :
    Except Error (List Value) :=
  match values.get? idx with
  | some (.Texture _) => pure (values.set idx (.Texture h))
  | some _ => throw (Error.ValueErr "TypeMismatch")
  | none => throw (Error.ValueErr "Index")

/-- Abstraction of `f32::powf`. Transcendental float behavior is outside the
integer model; no claim depends on it. -/
def f32_powf (_a _b : ℤ) : ℤ := 0

/-- Abstraction of `f32::log`. Same caveat as `f32_powf`. -/
def f32_log (_a _b : ℤ) : ℤ := 0

/-- Abstraction of `f32` division. Non-integral quotients are outside the
integer model; no claim depends on it. -/
def f32_div (_a _b : ℤ) : ℤ := 0

/-! ### Shader-template operators (src/grafiek_engine/src/ops/graphics/
     shade.rs, src/grafiek_engine/src/ops/graphics/tweak_shader_template.rs).
     `Grayscale` is declared by `shader_op!(Grayscale, "grayscale",
     "Grayscale", "glsl/grayscale.glsl")` (shade.rs line 40): a struct with a
     `ctx: Option<RenderContext>` field plus `match_input_dimensions: bool`,
     whose `Operation` impl is the blanket `impl<T: ShaderTemplate>
     Operation for T` of tweak_shader_template.rs with
     `OperationFactory::LIBRARY = "shader"`. The `tweak_shader` crate itself
     (its `RenderContext` compiler and `InputType`) and the GLSL asset are
     external to src/ and are modelled from the spec where noted. -/

/-- The `TextureFormat` enum of tweak_shader_template.rs (the `ShaderConfig`
`format` field), distinct from the value.rs `TextureFormat`. -/
inductive ShaderTextureFormat where
  | RGBA8
  | RGBA16
  | RGBAf32
deriving DecidableEq, Repr

/-- Mirrors `TextureFormat::to_wgpu`; the external `wgpu::TextureFormat`
namespace is embedded into the value.rs format enum (`Rgba8Unorm` as
`RGBAu8`, `Rgba16Unorm` as `RGBAu16`, `Rgba32Float` as `RGBAF32`). -/
def ShaderTextureFormat.to_wgpu : ShaderTextureFormat → TextureFormat
  | .RGBA8 => .RGBAu8
  | .RGBA16 => .RGBAu16
  | .RGBAf32 => .RGBAF32

/-- The derived `Extract` impl for the `EnumSchema` enum
`ShaderTextureFormat` (discriminants `RGBA8 = 0`, `RGBA16 = 1`,
`RGBAf32 = 2`). -/
def extract_shader_texture_format (v : Value) : Except Error ShaderTextureFormat :=
  match v with
  | .I32 i =>
    if i = 0 then pure .RGBA8
    else if i = 1 then pure .RGBA16
    else if i = 2 then pure .RGBAf32
    else throw (Error.ValueErr "InvalidEnum")
  | _ => throw (Error.ValueErr "TypeMismatch")

/-- `tweak_shader::input_type::InputType`, restricted to the data
`register_input` reads from each variant. Modelled from the spec: the
tweak_shader crate is an external dependency, not under src/. -/
inductive TsInputType where
  | Float (min max default : ℤ)
  | Int (min max default : Int) (labels : Option (List (String × Int)))
  | Bool (default : Bool)
  | Image
  | Unsupported
deriving DecidableEq, Repr

/-- `tweak_shader::RenderContext`, reduced to its engine-visible face: the
ordered uniform list that `iter_inputs` exposes. Its GPU state (uniform
buffers, render passes) is invisible to engine state. Modelled from the
spec (external crate). -/
structure RenderContextM where
  inputs : List (String × TsInputType)
deriving DecidableEq, Repr

/-- The GLSL source of the Grayscale shader,
`include_str!("glsl/grayscale.glsl")` (shade.rs). Modelled from the spec:
non-Rust assets are not under src/, so the text is an opaque token; only its
identity (equality with a later config's `source` string) is observable. -/
def grayscale_src : String := "glsl/grayscale.glsl"

/-- `RenderContext::new`. Modelled from the spec: the GLSL compiler lives in
the external tweak_shader crate. Compiling the Grayscale source succeeds and
yields its uniform interface - a single image uniform, per the spec's
description of shader nodes deriving their input slots from the uniforms
declared in the source, a grayscale filter consuming one image. Any other
source fails to compile, keeping the error path exercisable. The format
argument configures GPU-side state only. -/
def render_context_new (src : String) (_format : TextureFormat) :
    Except String RenderContextM :=
  if src = grayscale_src then
    pure { inputs := [("input_image", TsInputType.Image)] }
  else
    throw "shader compile failure"

/-- Mirrors `register_input` (tweak_shader_template.rs lines 38-85). The
in-tree value.rs has no `Bool` variant (only the tweak_shader generation of
the value union adds one), so an `add_input::<bool>` slot is modelled as an
`I32` flag (0/1) with no extended metadata. The `Float` arm's step is
`(max - min) / 100.0`, expressed through the `f32_div` abstraction. -/
def register_input (name : String) (input : TsInputType)
    (registry : SignatureRegistery) : SignatureRegistery :=
  match input with
  | .Float mn mx df =>
    { registry with inputs := registry.inputs ++
      [{ value_type := .F32, name := name,
         extended := .FloatRangeMeta { min := mn, max := mx, step := f32_div (mx - mn) 100 },
         common := CommonMetadata.default,
         default_override := some (.F32 df) }] }
  | .Int _ _ df (some labels) =>
    { registry with inputs := registry.inputs ++
      [{ value_type := .I32, name := name,
         extended := .IntEnumMeta { options := labels },
         common := CommonMetadata.default,
         default_override := some (.I32 df) }] }
  | .Int mn mx df none =>
    { registry with inputs := registry.inputs ++
      [{ value_type := .I32, name := name,
         extended := .IntRangeMeta { min := mn, max := mx, step := 1 },
         common := CommonMetadata.default,
         default_override := some (.I32 df) }] }
  | .Bool d =>
    { registry with inputs := registry.inputs ++
      [{ value_type := .I32, name := name, extended := .None,
         common := CommonMetadata.default,
         default_override := some (.I32 (if d then 1 else 0)) }] }
  | .Image =>
    { registry with inputs := registry.inputs ++ [mkSlot .Texture name] }
  | .Unsupported => registry

/-- Mirrors `register_all_inputs`: register each uniform in iteration
order. -/
def register_all_inputs (ctx : RenderContextM)
    (registry : SignatureRegistery) : SignatureRegistery :=
  ctx.inputs.foldl (fun r ni => register_input ni.1 ni.2 r) registry

/-- The five config slots that `registry.register_config::<ShaderConfig>()`
appends, in field order, per the `ConfigSchema` derive (schema_derive
lib.rs: label = field name, `#[meta(..)]` sets extended metadata,
`#[default(d)]` sets the override, `#[on_node_body]` and `#[noninteractive]`
set the common flags; an `EnumSchema` field carries its `IntEnum` options as
default metadata). The `bool` field `preview` is an `I32` flag here (see
`register_input`), its `#[default(true)]` becoming `I32 1`. -/
def shader_config_slots : List SlotDef :=
  [{ value_type := .I32, name := "format",
     extended := .IntEnumMeta { options := [("RGBA8", 0), ("RGBA16", 1), ("RGBAf32", 2)] },
     common := CommonMetadata.default, default_override := none },
   { value_type := .I32, name := "width",
     extended := .IntRangeMeta { min := 1, max := 8192, step := 1 },
     common := { CommonMetadata.default with interactive := false },
     default_override := some (.I32 512) },
   { value_type := .I32, name := "height",
     extended := .IntRangeMeta { min := 1, max := 8192, step := 1 },
     common := { CommonMetadata.default with interactive := false },
     default_override := some (.I32 512) },
   { value_type := .I32, name := "preview", extended := .None,
     common := { CommonMetadata.default with on_node_body := true },
     default_override := some (.I32 1) },
   { value_type := .String, name := "source",
     extended := .StringExt { kind := .Glsl, multi_line := true },
     common := CommonMetadata.default, default_override := none }]

/-- The extracted `ShaderConfig` (`preview` as a flag, see above). -/
structure ShaderConfigM where
  format : ShaderTextureFormat
  width : Int
  height : Int
  preview : Bool
  source : String
deriving DecidableEq, Repr

/-- Extraction of a `GrafiekString`-typed slot (`values.extract::<String>`):
the payload string, dropping the dirty bit. -/
def extract_string (values : List Value) (idx : Nat) : Except Error String :=
  match values.get? idx with
  | some (.String s) => pure s.inner
  | some _ => throw (Error.ValueErr "TypeMismatch")
  | none => throw (Error.ValueErr "Index")

/-- Extraction of a bool-as-`I32` flag slot (nonzero is true). -/
def extract_flag (values : List Value) (idx : Nat) : Except Error Bool :=
  match values.get? idx with
  | some (.I32 v) => pure (v ≠ 0)
  | some _ => throw (Error.ValueErr "TypeMismatch")
  | none => throw (Error.ValueErr "Index")

/-- Mirrors the derived `ShaderConfig::try_extract`: extract each field from
its index in declaration order, propagating the first failure. -/
def shader_config_try_extract (values : List Value) : Except Error ShaderConfigM := do
  let f0 ← match values.get? 0 with
    | some v => pure v
    | none => throw (Error.ValueErr "Index")
  let format ← extract_shader_texture_format f0
  let width ← extract_i32 values 1
  let height ← extract_i32 values 2
  let preview ← extract_flag values 3
  let source ← extract_string values 4
  pure { format := format, width := width, height := height,
         preview := preview, source := source }

/-- Mirrors `cfg.width as u32`: two's-complement reinterpretation of the
`i32` into `u32`. -/
def i32_as_u32 (i : Int) : Nat := (i % (2 : Int) ^ 32).toNat

/-- Closed sum replacing the `Box<dyn Operation>` trait object, covering the
operators `Engine::init` registers. `grayscale` carries the `Grayscale`
struct's state from shade.rs line 40: the compiled render context (as
`RenderContextM`) and `match_input_dimensions`. -/
inductive Op where
  | input (value_type : InputType) (value : Value)
  | output
  | arithmetic (operation : ArithOp)
  | grayscale (ctx : Option RenderContextM) (match_input_dimensions : Bool)
deriving DecidableEq, Repr

def Op.op_path : Op → OpPath
  | .input .. => { library := "core", operator := "input" }
  | .output => { library := "core", operator := "output" }
  | .arithmetic _ => { library := "math", operator := "add" }
  | .grayscale .. => { library := "shader", operator := "grayscale" }

/-- Enum metadata produced by the `EnumSchema` derive for `ArithOp`. -/
def arith_op_enum_meta : ExtendedMetadata :=
  .IntEnumMeta { options := [("Add", 0), ("Subtract", 1), ("Multiply", 2),
    ("Power", 3), ("Log", 4), ("Divide", 5), ("Min", 6), ("Max", 7), ("Abs", 8)] }

def input_type_enum_meta : ExtendedMetadata :=
  .IntEnumMeta { options := [("Float", 0), ("Int", 1), ("Texture", 2)] }

/-- Config slot registered by `AddConfig` (arithmetic.rs): one `i32` enum slot
named after the field `operation`. -/
def add_config_slot : SlotDef :=
  { value_type := .I32, name := "operation", extended := arith_op_enum_meta,
    common := CommonMetadata.default, default_override := none }

/-- Config slot registered by `InputConfig` (input.rs): field `value_type`
with `#[on_node_body]` and `#[label("type")]`. -/
def input_config_slot : SlotDef :=
  { value_type := .I32, name := "type", extended := input_type_enum_meta,
    common := { CommonMetadata.default with on_node_body := true },
    default_override := none }

/-- The `"output"` texture slot a shader template registers:
`add_output::<TextureHandle>("output").meta(TextureMeta { preview
}).dimensions(w, h)` - `dimensions` sets the default handle's width and
height to `w.max(1)` / `h.max(1)` on the type-default handle (slot.rs lines
248-257), leaving `id = none` and the default format. -/
def shader_output_slot (preview : Bool) (w h : Nat) : SlotDef :=
  { value_type := .Texture, name := "output",
    extended := .TextureExt { preview := preview, allow_file := false },
    common := CommonMetadata.default,
    default_override := some (.Texture
      { id := none, width := max w 1, height := max h 1, fmt := .RGBAu8 }) }

/-- Mirrors `Operation::setup` for each operator.
`Input::setup` (input.rs lines 63-66), `Output::setup` (output.rs lines
18-26), `Arithmetic::setup` (arithmetic.rs lines 41-46); `grayscale` uses
the `ShaderTemplate` blanket impl (tweak_shader_template.rs lines 132-160):
register the `ShaderConfig` slots, override the `source` default
(`config_mut(4)`) with `T::SRC`, compile the source - on failure log and
return early with no inputs or output registered - then register the
uniform-derived inputs, store the context, and add the 512x512 `"output"`
texture slot with a preview meta. -/
def Op.setup (op : Op) (registry : SignatureRegistery) : Op × SignatureRegistery :=
  match op with
  | .input _ _ =>
    (op, { registry with
      outputs := registry.outputs ++ [mkSlot .F32 "value"],
      config := registry.config ++ [input_config_slot] })
  | .output =>
    (op, { registry with inputs := registry.inputs ++ [mkSlot .Any "value"] })
  | .arithmetic _ =>
    (op, { registry with
      inputs := registry.inputs ++ [mkSlot .F32 "a", mkSlot .F32 "b"],
      outputs := registry.outputs ++ [mkSlot .F32 "result"],
      config := registry.config ++ [add_config_slot] })
  | .grayscale _ match_input_dimensions =>
    let registry := { registry with config := registry.config ++ shader_config_slots }
    let cfg_with_src : List SlotDef :=
      match registry.config.get? 4 with
      | some slot =>
        let sv : Value := .String { inner := grayscale_src, dirty := false }
        let src_slot : SlotDef := { slot with default_override := some sv }
        registry.config.set 4 src_slot
      | none => registry.config
    let registry := { registry with config := cfg_with_src }
    match render_context_new grayscale_src .RGBAu8 with
    | .error _ => (op, registry)
    | .ok rc =>
      let registry := register_all_inputs rc registry
      (Op.grayscale (some rc) match_input_dimensions,
       { registry with outputs := registry.outputs ++ [shader_output_slot true 512 512] })

/-- Mirrors `Operation::configure` for each operator. `Output` uses the
trait default (Ok, unchanged); `grayscale` uses the `ShaderTemplate` blanket
impl (tweak_shader_template.rs lines 162-190): extract the `ShaderConfig`,
recompile its `source` (failure becomes `Error::Script("Shader compile
error: ..")`), re-register the uniform inputs after `clear_inputs`, store
the new context, and re-register the `"output"` slot after `clear_outputs`
at the configured width/height (`as u32`, then `max 1` in `dimensions`) and
preview flag. -/
def Op.configure (op : Op) (config : List Value) (registry : SignatureRegistery) :
    Except Error (Op × SignatureRegistery) :=
  match op with
  | .grayscale _ match_input_dimensions => do
    let cfg ← shader_config_try_extract config
    let rc ← match render_context_new cfg.source cfg.format.to_wgpu with
      | .ok rc => pure rc
      | .error e => throw (Error.Script ("Shader compile error: " ++ e))
    let registry := { registry with inputs := [] }
    let registry := register_all_inputs rc registry
    let registry := registry.clear_outputs
    pure (Op.grayscale (some rc) match_input_dimensions,
      { registry with outputs := registry.outputs ++
        [shader_output_slot cfg.preview (i32_as_u32 cfg.width) (i32_as_u32 cfg.height)] })
  | .arithmetic _ => do
    let registry := registry.clear
    let registry := { registry with outputs := registry.outputs ++ [mkSlot .F32 "result"] }
    let cfg0 ← match config.get? 0 with
      | some v => pure v
      | none => throw (Error.ValueErr "Index")
    let operation ← extract_arith_op cfg0
    let new_inputs : List SlotDef :=
      match operation with
      | .Add | .Multiply | .Max | .Min => [mkSlot .F32 "a", mkSlot .F32 "b"]
      | .Subtract => [mkSlot .F32 "minuend", mkSlot .F32 "subtrahend"]
      | .Power => [mkSlot .F32 "base", mkSlot .F32 "exponent"]
      | .Log => [mkSlot .F32 "base", mkSlot .F32 "a"]
      | .Divide => [mkSlot .F32 "dividend", mkSlot .F32 "divisor"]
      | .Abs => [mkSlot .F32 "a"]
    pure (.arithmetic operation, { registry with inputs := registry.inputs ++ new_inputs })
  | .input old_type value => do
    let cfg0 ← match config.get? 0 with
      | some v => pure v
      | none => throw (Error.ValueErr "Index")
    let new_type ← extract_input_type cfg0
    let registry := registry.clear_outputs
    match new_type with
    | .Float =>
      let value := if old_type ≠ InputType.Float then Value.F32 0 else value
      pure (.input .Float value,
        { registry with outputs := registry.outputs ++ [mkSlot .F32 "value"] })
    | .Int =>
      let value := if old_type ≠ InputType.Int then Value.I32 0 else value
      pure (.input .Int value,
        { registry with outputs := registry.outputs ++ [mkSlot .I32 "value"] })
    | .Texture =>
      pure (.input .Texture value,
        { registry with outputs := registry.outputs ++
          [{ value_type := .Texture, name := "value",
             extended := .TextureExt { preview := true, allow_file := true },
             common := CommonMetadata.default,
             default_override := some (.Texture SPECK) }] })
  | _ => pure (op, registry)

/-- Mirrors `Operation::execute` for each operator (input.rs lines 109-123,
output.rs lines 28-35, arithmetic.rs lines 84-138); `grayscale` uses the
`ShaderTemplate` blanket impl (tweak_shader_template.rs lines 192-264):
return Ok immediately when no context is stored, otherwise copy the input
values into the shader's uniforms (GPU-side state, invisible to engine
state), then `outputs.extract::<TextureHandle>(0)?` and render into that
texture - the only engine-visible effects are that extraction's errors. -/
def Op.execute (op : Op) (inputs outputs : List Value) :
    Except Error (Op × List Value) :=
  match op with
  | .input _ value => do
    match value with
    | .F32 v => do pure (op, ← write_f32 outputs 0 v)
    | .I32 v => do pure (op, ← write_i32 outputs 0 v)
    | .Texture h => do pure (op, ← write_texture outputs 0 h)
    | _ => pure (op, outputs)
  | .output => pure (op, outputs)
  | .arithmetic operation => do
    match operation with
    | .Add => do
      let a ← extract_f32 inputs 0
      let b ← extract_f32 inputs 1
      pure (op, ← write_f32 outputs 0 (a + b))
    | .Subtract => do
      let a ← extract_f32 inputs 0
      let b ← extract_f32 inputs 1
      pure (op, ← write_f32 outputs 0 (a - b))
    | .Multiply => do
      let a ← extract_f32 inputs 0
      let b ← extract_f32 inputs 1
      pure (op, ← write_f32 outputs 0 (a * b))
    | .Power => do
      let a ← extract_f32 inputs 0
      let b ← extract_f32 inputs 1
      pure (op, ← write_f32 outputs 0 (f32_powf a b))
    | .Log => do
      let a ← extract_f32 inputs 0
      let b ← extract_f32 inputs 1
      pure (op, ← write_f32 outputs 0 (f32_log a b))
    | .Divide => do
      let a ← extract_f32 inputs 0
      let b ← extract_f32 inputs 1
      pure (op, ← write_f32 outputs 0 (f32_div a b))
    | .Min => do
      let a ← extract_f32 inputs 0
      let b ← extract_f32 inputs 1
      pure (op, ← write_f32 outputs 0 (min a b))
    | .Max => do
      let a ← extract_f32 inputs 0
      let b ← extract_f32 inputs 1
      pure (op, ← write_f32 outputs 0 (max a b))
    | .Abs => do
      let a ← extract_f32 inputs 0
      pure (op, ← write_f32 outputs 0 |a|)
  | .grayscale octx _ =>
    match octx with
    | none => pure (op, outputs)
    | some _ =>
      match outputs.get? 0 with
      | some (.Texture _) => pure (op, outputs)
      | some _ => throw (Error.ValueErr "TypeMismatch")
      | none => throw (Error.ValueErr "Index")

/-- The embedded operators all rely on the trait-default `on_edge_connected`
and `on_edge_disconnected` (no-ops returning Ok). -/
def Op.on_edge_connected (op : Op) (_slot : Nat) (_ty : ValueType)
    (registry : SignatureRegistery) : Except Error (Op × SignatureRegistery) :=
  pure (op, registry)

def Op.on_edge_disconnected (op : Op) (_slot : Nat) (_ty : ValueType)
    (registry : SignatureRegistery) : Except Error (Op × SignatureRegistery) :=
  pure (op, registry)

/-! ## Node (src/grafiek_engine/src/node.rs). The atomic `DirtyFlag` is a
     plain `Bool` here: the engine is single-threaded and no claim involves
     the cross-thread handle. -/

structure Node where
  record : NodeRecord
  signature : SignatureRegistery
  output_values : List Value
  incoming_input_values : List (Option Value)
  operation : Op
  dirty : Bool
deriving DecidableEq, Repr

def Node.new (operation : Op) (id : Nat) : Node :=
  { record := NodeRecord.new id operation.op_path,
    signature := SignatureRegistery.empty,
    output_values := [], incoming_input_values := [],
    operation := operation, dirty := false }

inductive ConnectionProbe where
  | Ok
  | NoSourceSlot
  | NoSinkSlot
  | Incompatible
  | CreatesLoop
deriving DecidableEq, Repr

/-- Mirrors `Node::probe_connect` (node.rs lines 150-164). -/
def Node.probe_connect (self other : Node) (from_port to_port : Nat) :
    ConnectionProbe :=
  match self.signature.output from_port with
  | none => .NoSourceSlot
  | some output_def =>
    match other.signature.input to_port with
    | none => .NoSinkSlot
    | some input_def =>
      if ¬ output_def.value_type.can_cast_to input_def.value_type then .Incompatible
      else .Ok

def Node.input_count (n : Node) : Nat := n.signature.input_count
def Node.output_count (n : Node) : Nat := n.signature.output_count
def Node.config_count (n : Node) : Nat := n.signature.config_count

/-- Mirrors `Node::input`: the buffered incoming value if present, else the
stored record value. -/
def Node.input (n : Node) (index : Nat) : Option (SlotDef × Value) := do
  let def_ ← n.signature.input index
  let value ← match n.incoming_input_values.get? index with
    | some (some v) => some v
    | _ => n.record.input_values.get? index
  pure (def_, value)

def Node.output (n : Node) (index : Nat) : Option (SlotDef × Value) := do
  let def_ ← n.signature.output index
  let value ← n.output_values.get? index
  pure (def_, value)

def Node.configValue (n : Node) (index : Nat) : Option (SlotDef × Value) := do
  let def_ ← n.signature.configSlot index
  let value ← n.record.config_values.get? index
  pure (def_, value)

def Node.is_dirty (n : Node) : Bool := n.dirty

/-- Mirrors `Node::setup` (node.rs lines 244-273): run the operation's
setup, validate names, then derive stored input/config values, output
values and the incoming buffer from the signature. Failure leaves the
partially written node next to the error, matching the `?` early return. -/
def Node.setup (n : Node) : Node × Except Error Unit :=
  let (op, signature) := n.operation.setup n.signature
  let n := { n with operation := op, signature := signature }
  match signature.validate_unique_names with
  | .error e => (n, .error e)
  | .ok _ =>
    let n := { n with
      record := { n.record with
        input_values := signature.inputs.map SlotDef.default_value,
        config_values := signature.config.map SlotDef.default_value },
      output_values := signature.outputs.map SlotDef.default_value,
      incoming_input_values := List.replicate signature.input_count none }
    (n, .ok ())

/-- Mirrors `Node::configure` (node.rs lines 344-364): reconfigure the
operation from the stored config values, validate names, and recompute the
default output values. Neither the stored input values nor the incoming
buffer are touched. -/
def Node.configure (n : Node) : Node × Except Error Unit :=
  match n.operation.configure n.record.config_values n.signature with
  | .error e => (n, .error e)
  | .ok (op, signature) =>
    let n := { n with operation := op, signature := signature }
    match signature.validate_unique_names with
    | .error e => (n, .error e)
    | .ok _ =>
      ({ n with output_values := signature.outputs.map SlotDef.default_value }, .ok ())

/-- Mirrors `Node::edit_input` (node.rs lines 278-299) with the closure as a
`SlotDef → Value → Value` function (a `ValueMut` view mutates the payload
in place). The dirty flag is set when the post-state differs from the
checkpoint. -/
def Node.edit_input (n : Node) (idx : Nat) (f : SlotDef → Value → Value) :
    Node × Except Error Unit :=
  match n.record.input_values.get? idx with
  | none => (n, .error (Error.NoPort idx))
  | some slot =>
    let checkpoint := slot.checkpoint
    match n.signature.input idx with
    | none => (n, .error (Error.NoPort idx))
    | some slot_def =>
      let slot := f slot_def slot
      let (changed, slot) := slot.changed_since checkpoint
      ({ n with record := { n.record with input_values := n.record.input_values.set idx slot },
                dirty := n.dirty || changed }, .ok ())

/-- Mirrors `Node::edit_output` (node.rs lines 303-320). -/
def Node.edit_output (n : Node) (idx : Nat) (f : SlotDef → Value → Value) :
    Node × Except Error Unit :=
  match n.output_values.get? idx with
  | none => (n, .error (Error.NoPort idx))
  | some slot =>
    let checkpoint := slot.checkpoint
    match n.signature.output idx with
    | none => (n, .error (Error.NoPort idx))
    | some slot_def =>
      let slot := f slot_def slot
      let (changed, slot) := slot.changed_since checkpoint
      ({ n with output_values := n.output_values.set idx slot,
                dirty := n.dirty || changed }, .ok ())

/-- Mirrors `Node::edit_config` (node.rs lines 322-342). -/
def Node.edit_config (n : Node) (idx : Nat) (f : SlotDef → Value → Value) :
    Node × Except Error Unit :=
  match n.record.config_values.get? idx with
  | none => (n, .error (Error.NoPort idx))
  | some slot =>
    let checkpoint := slot.checkpoint
    match n.signature.configSlot idx with
    | none => (n, .error (Error.NoPort idx))
    | some slot_def =>
      let slot := f slot_def slot
      let (changed, slot) := slot.changed_since checkpoint
      ({ n with record := { n.record with config_values := n.record.config_values.set idx slot },
                dirty := n.dirty || changed }, .ok ())

/-- Mirrors `Node::push_incoming`. -/
def Node.push_incoming (n : Node) (slot : Nat) (value : Value) : Node :=
  if slot < n.incoming_input_values.length then
    { n with incoming_input_values := n.incoming_input_values.set slot (some value) }
  else n

/-- Mirrors `Node::clear_incoming`. -/
def Node.clear_incoming (n : Node) (slot : Nat) : Node :=
  if slot < n.incoming_input_values.length then
    { n with incoming_input_values := n.incoming_input_values.set slot none }
  else n

def Node.snapshot_outputs (n : Node) : List Value := n.output_values

/-- Mirrors `Node::execute` (node.rs lines 400-417): inputs prefer the
buffered incoming value over the stored default, the dirty flag is cleared
only on success. -/
def Node.execute (n : Node) : Node × Except Error Unit :=
  let inputs := (n.incoming_input_values.zip n.record.input_values).map
    (fun p => p.1.getD p.2)
  match n.operation.execute inputs n.output_values with
  | .error e => (n, .error e)
  | .ok (op, outputs) =>
    ({ n with operation := op, output_values := outputs, dirty := false }, .ok ())

/-! ## GPU resource pool (src/grafiek_engine/src/gpu_pool.rs). A pool entry
     keeps the texture's observable size and its owner tag; texel data is
     irrelevant to every claim. -/

inductive TextureOwner where
  | Engine
  | NodeOwner (idx : Nat)
deriving DecidableEq, Repr

structure TextureEntry where
  width : Nat
  height : Nat
  owner : TextureOwner
deriving DecidableEq, Repr

structure GPUResourcePool where
  textures : List (Nat × TextureEntry)
  next_id : Nat
deriving DecidableEq, Repr

def GPUResourcePool.new : GPUResourcePool :=
  { textures := [], next_id := SYSTEM_TEXTURE_COUNT }

/-- HashMap insert: replace the entry at the key, or add it. -/
def pool_insert (l : List (Nat × TextureEntry)) (k : Nat) (v : TextureEntry) :
    List (Nat × TextureEntry) :=
  if l.any (fun p => p.1 = k) then l.map (fun p => if p.1 = k then (k, v) else p)
  else l ++ [(k, v)]

/-- Mirrors `GPUResourcePool::insert_texture` (system textures at their
predefined ids, owned by the engine). -/
def GPUResourcePool.insert_texture (pool : GPUResourcePool) (handle : TextureHandle) :
    GPUResourcePool :=
  match handle.id with
  | some id =>
    let entry : TextureEntry :=
      { width := handle.width, height := handle.height, owner := .Engine }
    { pool with textures := pool_insert pool.textures id entry }
  | none => pool

/-- Mirrors `GPUResourcePool::alloc_texture` (gpu_pool.rs lines 66-77): a
fresh id whose entry is tagged `TextureOwner::Engine`. -/
def GPUResourcePool.alloc_texture (pool : GPUResourcePool) (handle : TextureHandle) :
    Nat × GPUResourcePool :=
  let id := pool.next_id
  let entry : TextureEntry :=
    { width := handle.width, height := handle.height, owner := .Engine }
  (id, { textures := pool_insert pool.textures id entry, next_id := pool.next_id + 1 })

/-- Mirrors `GPUResourcePool::alloc_texture_with_data` (gpu_pool.rs lines
79-97): a fresh id whose entry is tagged with the owning node. -/
def GPUResourcePool.alloc_texture_with_data (pool : GPUResourcePool) (owner : Nat)
    (handle : TextureHandle) : Nat × GPUResourcePool :=
  let id := pool.next_id
  let entry : TextureEntry :=
    { width := handle.width, height := handle.height, owner := .NodeOwner owner }
  (id, { textures := pool_insert pool.textures id entry, next_id := pool.next_id + 1 })

def GPUResourcePool.get_texture (pool : GPUResourcePool) (id : Nat) :
    Option TextureEntry :=
  (pool.textures.find? (fun p => p.1 = id)).map (·.2)

/-- Mirrors `GPUResourcePool::replace_texture`: swap the backing texture
(here, its size) while keeping id and owner. -/
def GPUResourcePool.replace_texture (pool : GPUResourcePool) (id : Nat)
    (width height : Nat) : GPUResourcePool :=
  { pool with textures := pool.textures.map (fun p =>
      if p.1 = id then (id, { p.2 with width := width, height := height }) else p) }

def GPUResourcePool.release_texture (pool : GPUResourcePool) (id : Nat) :
    GPUResourcePool :=
  { pool with textures := pool.textures.filter (fun p => p.1 ≠ id) }

/-- Mirrors `GPUResourcePool::release_node_textures` (gpu_pool.rs lines
113-116): retain every entry not owned by the node. -/
def GPUResourcePool.release_node_textures (pool : GPUResourcePool) (node : Nat) :
    GPUResourcePool :=
  { pool with textures := pool.textures.filter (fun p => p.2.owner ≠ .NodeOwner node) }

/-- Mirrors `ExecutionContext::ensure_texture` (engine.rs lines 30-46):
allocate when unallocated, replace in place when the size changed. -/
def ensure_texture (pool : GPUResourcePool) (handle : TextureHandle) :
    GPUResourcePool × TextureHandle :=
  match handle.id with
  | none =>
    let (id, pool) := pool.alloc_texture handle
    (pool, { handle with id := some id })
  | some id =>
    let needs_resize := match pool.get_texture id with
      | some tex => tex.width != handle.width || tex.height != handle.height
      | none => false
    if needs_resize then (pool.replace_texture id handle.width handle.height, handle)
    else (pool, handle)

/-! ## Engine (src/grafiek_engine/src/engine.rs).

The `StableDiGraph` becomes an association list of still-live node indices
plus a list of edges; `Edge` here combines the arc endpoints with the
source-side `Edge { source_slot, sink_slot }` weight. Fresh indices are
issued monotonically (petgraph may recycle a removed index; no claim
distinguishes the two). The optional message sink becomes a message trace:
`msgs` records every `Message` handed to the `on_message` handler, in
order. -/

structure Edge where
  src : Nat
  dst : Nat
  source_slot : Nat
  sink_slot : Nat
deriving DecidableEq, Repr

structure Engine where
  nodes : List (Nat × Node)
  edges : List Edge
  pool : GPUResourcePool
  history : History
  msgs : List Message
  last_id : Nat
  next_index : Nat
deriving DecidableEq, Repr

/-- Mirrors `Engine::init` (engine.rs lines 84-112): the four system
textures are inserted into the pool; graph, history and trace start empty.
The operator factory registry is not modelled: every claim creates nodes
through `add_node`, which takes the operation directly. -/
def Engine.init : Engine :=
  let pool := GPUResourcePool.new
  let pool := pool.insert_texture SPECK
  let pool := pool.insert_texture FLECK
  let pool := pool.insert_texture TRANSPARENT_SPECK
  let pool := pool.insert_texture CHECK
  { nodes := [], edges := [], pool := pool, history := History.default,
    msgs := [], last_id := 0, next_index := 0 }

def Engine.getNode (e : Engine) (idx : Nat) : Option Node :=
  (e.nodes.find? (fun p => p.1 = idx)).map (·.2)

def Engine.setNode (e : Engine) (idx : Nat) (n : Node) : Engine :=
  { e with nodes := e.nodes.map (fun p => if p.1 = idx then (idx, n) else p) }

def Engine.node_count (e : Engine) : Nat := e.nodes.length

def Engine.edge_count (e : Engine) : Nat := e.edges.length

/-- Mirrors `Engine::emit` (engine.rs lines 586-606): mutations are pushed
onto the history, every message goes to the sink (the trace), and a
graph-dirtying mutation is trailed by a synthetic `GraphDirtied` event. -/
def Engine.emit (e : Engine) (message : Message) : Engine :=
  let dirties := match message with
    | .mutation m => m.dirties_graph
    | .event _ => false
  let history := match message with
    | .mutation m => e.history.push m
    | .event _ => e.history
  { e with history := history,
           msgs := e.msgs ++ [message] ++
             (if dirties then [Message.event .GraphDirtied] else []) }

/-- One saturation step of reachability over the edge list. -/
def reach_step (edges : List Edge) (s : List Nat) : List Nat :=
  s ++ ((edges.filter (fun ed => ed.src ∈ s ∧ ed.dst ∉ s)).map (·.dst)).dedup

def reach_iter (edges : List Edge) : Nat → List Nat → List Nat
  | 0, s => s
  | n + 1, s => reach_iter edges n (reach_step edges s)

/-- Mirrors `petgraph::algo::has_path_connecting` over the edge list
(`a` reaches itself trivially, as in petgraph). -/
def has_path_connecting (edges : List Edge) (a b : Nat) : Bool :=
  b ∈ reach_iter edges (edges.length + 1) [a]

/-- Removes the first edge matching the predicate (petgraph
`remove_edge` by the found edge id). -/
def remove_first_edge (p : Edge → Bool) : List Edge → List Edge
  | [] => []
  | ed :: rest => if p ed then rest else ed :: remove_first_edge p rest

/-- Per-slot body of `Engine::sync_output_textures`: inherit the old id for
a fresh texture handle, then `ensure_texture`. -/
def sync_one_output (old_outputs : List Value) (slot : Nat)
    (pool : GPUResourcePool) (v : Value) : GPUResourcePool × Value :=
  match v with
  | .Texture handle =>
    let handle := if handle.id = none then
        match old_outputs.get? slot with
        | some (.Texture old) => { handle with id := old.id }
        | _ => handle
      else handle
    let (pool, handle) := ensure_texture pool handle
    (pool, .Texture handle)
  | v => (pool, v)

/-- Mirrors `Engine::sync_output_textures` (engine.rs lines 750-774):
ensure every texture output is backed (transferring ids from the previous
outputs), then release textures orphaned by removed output slots. -/
def Engine.sync_output_textures (e : Engine) (index : Nat) (old_outputs : List Value) :
    Engine :=
  match e.getNode index with
  | none => e
  | some node =>
    let new_len := node.output_values.length
    let step := fun (acc : GPUResourcePool × List Value × Nat) (v : Value) =>
      let (pool, done, slot) := acc
      let (pool, v) := sync_one_output old_outputs slot pool v
      (pool, done ++ [v], slot + 1)
    let (pool, outputs, _) := node.output_values.foldl step (e.pool, [], 0)
    let pool := (old_outputs.drop new_len).foldl
      (fun pool old =>
        match old with
        | .Texture h => match h.id with
          | some id => pool.release_texture id
          | none => pool
        | _ => pool)
      pool
    let e := e.setNode index { node with output_values := outputs }
    { e with pool := pool }

/-- Mirrors `Engine::add_node` (engine.rs lines 147-161): insert the node,
run setup then configure, sync textures, emit `CreateNode`. A setup or
configure failure returns early with the node already in the graph,
matching the `?` propagation. -/
def Engine.add_node (e : Engine) (operation : Op) : Engine × Except Error Nat :=
  let id := e.last_id + 1
  let node := Node.new operation id
  let index := e.next_index
  let e := { e with last_id := id, next_index := e.next_index + 1,
                    nodes := e.nodes ++ [(index, node)] }
  let (node, setup_res) := node.setup
  let e := e.setNode index node
  match setup_res with
  | .error err => (e, .error err)
  | .ok _ =>
    let (node, cfg_res) := node.configure
    let e := e.setNode index node
    match cfg_res with
    | .error err => (e, .error err)
    | .ok _ =>
      let e := e.sync_output_textures index []
      let e := e.emit (.mutation (.CreateNode index node.record))
      (e, .ok index)

/-- Mirrors `Engine::connect` (engine.rs lines 225-316): validate through
`probe_connect`, reject a cycle, replace an existing driver of the target
input (emitting `Disconnect` first), add the edge, notify the sink node,
sync its textures, emit `Connect`. -/
def Engine.connect (e : Engine) (from_ to_ : Nat) (from_slot to_slot : Nat) :
    Engine × Except Error Unit :=
  match e.getNode from_ with
  | none => (e, .error (Error.NodeNotFound s!"Source node {from_}"))
  | some from_node =>
    match e.getNode to_ with
    | none => (e, .error (Error.NodeNotFound s!"Target node {to_}"))
    | some to_node =>
      match from_node.probe_connect to_node from_slot to_slot with
      | .NoSourceSlot => (e, .error (Error.NoOutputSlot from_slot))
      | .NoSinkSlot => (e, .error (Error.NoInputSlot to_slot))
      | .Incompatible => (e, .error (Error.IncompatibleTypes from_slot to_slot))
      | .CreatesLoop => (e, .error Error.CreatesLoop)
      | .Ok =>
        if has_path_connecting e.edges to_ from_ then (e, .error Error.CreatesLoop)
        else
          let existing := e.edges.find? (fun ed => ed.dst = to_ && ed.sink_slot = to_slot)
          let e := match existing with
            | some old =>
              let remaining := remove_first_edge (fun ed => ed == old) e.edges
              let e := { e with edges := remaining }
              e.emit (.mutation (.Disconnect old.src old.source_slot to_ to_slot))
            | none => e
          let new_edge : Edge :=
            { src := from_, dst := to_, source_slot := from_slot, sink_slot := to_slot }
          let e := { e with edges := e.edges ++ [new_edge] }
          let _connected_type :=
            ((from_node.signature.output from_slot).map (·.value_type)).getD .Any
          let old_outputs := match e.getNode to_ with
            | some n => n.snapshot_outputs
            | none => []
          let e := e.sync_output_textures to_ old_outputs
          let e := e.emit (.mutation (.Connect from_ from_slot to_ to_slot))
          (e, .ok ())

/-- Mirrors `Engine::disconnect` (engine.rs lines 321-359). -/
def Engine.disconnect (e : Engine) (from_ to_ : Nat) (from_slot to_slot : Nat) :
    Engine × Except Error Unit :=
  match e.getNode from_ with
  | none => (e, .error (Error.NodeNotFound s!"Source node {from_}"))
  | some from_node =>
    let _connected_type :=
      ((from_node.signature.output from_slot).map (·.value_type)).getD .Any
    let found := e.edges.find? (fun ed =>
      ed.src = from_ && ed.dst = to_ && ed.source_slot = from_slot && ed.sink_slot = to_slot)
    match found with
    | none => (e, .error (Error.EdgeNotFound from_slot to_slot))
    | some ed =>
      let e := { e with edges := remove_first_edge (fun x => x == ed) e.edges }
      let e := match e.getNode to_ with
        | some to_node => e.setNode to_ (to_node.clear_incoming to_slot)
        | none => e
      let old_outputs := match e.getNode to_ with
        | some n => n.snapshot_outputs
        | none => []
      let e := e.sync_output_textures to_ old_outputs
      let e := e.emit (.mutation (.Disconnect from_ from_slot to_ to_slot))
      (e, .ok ())

/-- Mirrors `Engine::delete_node` (engine.rs lines 165-192). Note two
peculiarities of the source, reproduced here: `graph.edges(index)` yields
only the OUTGOING edges of a directed petgraph graph, and the tuple
collected is `(from, to, weight.sink_slot, weight.source_slot)` while
`disconnect` expects `(from, to, from_slot, to_slot)` - the slots arrive
swapped. -/
def Engine.delete_node (e : Engine) (index : Nat) : Engine × Except Error Unit :=
  let outgoing := e.edges.filter (fun ed => ed.src = index)
  let tuples := outgoing.map (fun ed => (ed.src, ed.dst, ed.sink_slot, ed.source_slot))
  let disc := fun (acc : Engine × Except Error Unit) (t : Nat × Nat × Nat × Nat) =>
    match acc with
    | (e, .error err) => (e, .error err)
    | (e, .ok _) =>
      let (from_, to_, sink, source) := t
      e.disconnect from_ to_ sink source
  match tuples.foldl disc (e, .ok ()) with
  | (e, .error err) => (e, .error err)
  | (e, .ok _) =>
    let e := { e with pool := e.pool.release_node_textures index }
    let node := e.getNode index
    let e := { e with
      nodes := e.nodes.filter (fun p => p.1 ≠ index),
      edges := e.edges.filter (fun ed => ed.src ≠ index && ed.dst ≠ index) }
    match node with
    | some node => (e.emit (.mutation (.DeleteNode index node.record)), .ok ())
    | none => (e, .ok ())

/-- Mirrors `Engine::set_node_position` (engine.rs lines 197-217). -/
def Engine.set_node_position (e : Engine) (index : Nat) (position : ℤ × ℤ) :
    Engine × Except Error Unit :=
  match e.getNode index with
  | none => (e, .error (Error.NodeNotFound s!"Node {index}"))
  | some node =>
    let old_position := node.record.position
    let e := e.setNode index { node with record := { node.record with position := position } }
    let e := e.emit (.mutation (.MoveNode index old_position position))
    (e, .ok ())

/-- Mirrors `Engine::set_label` (engine.rs lines 508-525). -/
def Engine.set_label (e : Engine) (index : Nat) (label : String) : Engine :=
  match e.getNode index with
  | none => e
  | some node =>
    let new_label := if label.isEmpty then none else some label
    let old_label := node.record.label
    let e := e.setNode index { node with record := { node.record with label := new_label } }
    e.emit (.mutation (.SetLabel index old_label new_label))

/-- Mirrors `Engine::disconnect_invalid_edges` (engine.rs lines 672-697).
As in `delete_node`, `graph.edges(index)` yields only outgoing edges. -/
def Engine.disconnect_invalid_edges (e : Engine) (index : Nat) : Engine :=
  let candidates := e.edges.filter (fun ed => ed.src = index)
  candidates.foldl
    (fun (e : Engine) (ed : Edge) =>
      let is_valid : Bool := match e.getNode ed.src, e.getNode ed.dst with
        | some fn, some tn => fn.probe_connect tn ed.source_slot ed.sink_slot == .Ok
        | _, _ => false
      if is_valid then e
      else
        let e := { e with edges := remove_first_edge (fun x => x == ed) e.edges }
        let e := match e.getNode ed.dst with
          | some tn => e.setNode ed.dst (tn.clear_incoming ed.sink_slot)
          | none => e
        e.emit (.mutation (.Disconnect ed.src ed.source_slot ed.dst ed.sink_slot)))
    e

/-- Mirrors `Engine::reconfigure_node` (engine.rs lines 663-669). -/
def Engine.reconfigure_node (e : Engine) (index : Nat) : Engine × Except Error Unit :=
  match e.getNode index with
  | none => (e, .ok ())
  | some node =>
    let old_outputs := node.snapshot_outputs
    let (node, res) := node.configure
    let e := e.setNode index node
    match res with
    | .error err => (e, .error err)
    | .ok _ =>
      let e := e.disconnect_invalid_edges index
      let e := e.sync_output_textures index old_outputs
      (e, .ok ())

/-- Mirrors `Engine::edit_graph_input` (engine.rs lines 391-413): only a
`core/input` node may be edited, through its output slot 0. -/
def Engine.edit_graph_input (e : Engine) (index : Nat) (f : SlotDef → Value → Value) :
    Engine × Except Error Unit :=
  match e.getNode index with
  | none => (e, .error (Error.NodeNotFound s!"Node not found: {index}"))
  | some node =>
    if ¬ (node.record.op_path.library = "core" ∧ node.record.op_path.operator = "input") then
      (e, .error Error.NotInputNode)
    else
      let (node, res) := node.edit_output 0 f
      let e := e.setNode index node
      match res with
      | .error err => (e, .error err)
      | .ok _ =>
        if node.is_dirty then (e.emit (.event .GraphDirtied), .ok ())
        else (e, .ok ())

/-- Mirrors `Engine::edit_node_input` (engine.rs lines 436-452). -/
def Engine.edit_node_input (e : Engine) (index slot : Nat) (f : SlotDef → Value → Value) :
    Engine × Except Error Unit :=
  match e.getNode index with
  | none => (e, .error (Error.NodeNotFound s!"Node not found: {index}"))
  | some node =>
    let (node, res) := node.edit_input slot f
    let e := e.setNode index node
    match res with
    | .error err => (e, .error err)
    | .ok _ =>
      if node.is_dirty then (e.emit (.event .GraphDirtied), .ok ())
      else (e, .ok ())

/-- Mirrors `Engine::edit_node_config` (engine.rs lines 455-477): a dirtying
edit emits `GraphDirtied` and then reconfigures the node. -/
def Engine.edit_node_config (e : Engine) (index slot : Nat) (f : SlotDef → Value → Value) :
    Engine × Except Error Unit :=
  match e.getNode index with
  | none => (e, .error (Error.NodeNotFound s!"Node not found: {index}"))
  | some node =>
    let (node, res) := node.edit_config slot f
    let e := e.setNode index node
    match res with
    | .error err => (e, .error err)
    | .ok _ =>
      if node.is_dirty then
        let e := e.emit (.event .GraphDirtied)
        e.reconfigure_node index
      else (e, .ok ())

/-- Mirrors `Engine::edit_all_node_inputs` (engine.rs lines 416-433): the
slot loop stops at the first error, but the dirty check still runs. -/
def Engine.edit_all_node_inputs (e : Engine) (index : Nat) (f : SlotDef → Value → Value) :
    Engine × Except Error Unit :=
  match e.getNode index with
  | none => (e, .error (Error.NodeNotFound s!"Node not found: {index}"))
  | some node =>
    let step := fun (acc : Node × Except Error Unit) (slot : Nat) =>
      match acc with
      | (n, .error err) => (n, .error err)
      | (n, .ok _) => n.edit_input slot f
    let (node, res) := (List.range node.input_count).foldl step (node, .ok ())
    let e := e.setNode index node
    let e := if node.is_dirty then e.emit (.event .GraphDirtied) else e
    (e, res)

/-- Mirrors `Engine::edit_all_node_configs` (engine.rs lines 480-498). -/
def Engine.edit_all_node_configs (e : Engine) (index : Nat) (f : SlotDef → Value → Value) :
    Engine × Except Error Unit :=
  match e.getNode index with
  | none => (e, .error (Error.NodeNotFound s!"Node not found: {index}"))
  | some node =>
    let step := fun (acc : Node × Except Error Unit) (slot : Nat) =>
      match acc with
      | (n, .error err) => (n, .error err)
      | (n, .ok _) => n.edit_config slot f
    let (node, res) := (List.range node.config_count).foldl step (node, .ok ())
    let e := e.setNode index node
    if node.is_dirty then
      let e := e.emit (.event .GraphDirtied)
      match e.reconfigure_node index with
      | (e, .error err) => (e, .error err)
      | (e, .ok _) => (e, res)
    else (e, res)

/-- Mirrors `Engine::upload_texture` (engine.rs lines 708-747): the only
allocation path that tags the pool entry with the owning node. The pixel
payload is irrelevant to the model. -/
def Engine.upload_texture (e : Engine) (index slot : Nat) (width height : Nat) :
    Engine × Except Error Unit :=
  match e.getNode index with
  | none => (e, .error (Error.NodeNotFound s!"Node not found: {index}"))
  | some node =>
    match node.output_values.get? slot with
    | none => (e, .error (Error.NoOutputSlot slot))
    | some output =>
      match output with
      | .Texture handle =>
        let e := match handle.id with
          | some old_id => { e with pool := e.pool.release_texture old_id }
          | none => e
        let handle := { handle with width := width, height := height }
        let (id, pool) := e.pool.alloc_texture_with_data index handle
        let handle := { handle with id := some id }
        let node := { node with output_values := node.output_values.set slot (.Texture handle) }
        let e := { e.setNode index node with pool := pool }
        (e.emit (.event .GraphDirtied), .ok ())
      | _ => (e, .error (Error.Script "Output is not a texture"))

/-- Mirrors the iteration order of `petgraph::visit::Topo` up to the only
property the engine relies on: every node runs after all of its
predecessors. Among ready nodes the least-recently-added runs first. -/
def Engine.pick_ready (e : Engine) (visited : List Nat) : Option Nat :=
  (e.nodes.find? (fun p =>
    p.1 ∉ visited ∧
    ∀ ed ∈ e.edges, ed.dst = p.1 → ed.src ∈ visited)).map (·.1)

/-- Body of the `Engine::execute` loop for one node: run it (failures are
logged and ignored), emit `NodeExecuted`, and push each output along the
outgoing edges into the sink nodes' incoming buffers. -/
def Engine.execute_node (e : Engine) (idx : Nat) : Engine :=
  match e.getNode idx with
  | none => e
  | some node =>
    let (node, _res) := node.execute
    let e := e.setNode idx node
    let e := e.emit (.event (.NodeExecuted idx))
    (e.edges.filter (fun ed => ed.src = idx)).foldl
      (fun e ed =>
        match node.output ed.source_slot with
        | some (_, value) =>
          match e.getNode ed.dst with
          | some dep => e.setNode ed.dst (dep.push_incoming ed.sink_slot value)
          | none => e
        | none => e)
      e

def Engine.execute_loop (e : Engine) (visited : List Nat) : Nat → Engine
  | 0 => e
  | fuel + 1 =>
    match e.pick_ready visited with
    | none => e
    | some idx =>
      Engine.execute_loop (e.execute_node idx) (visited ++ [idx]) fuel

/-- Mirrors `Engine::execute` (engine.rs lines 552-581). -/
def Engine.execute (e : Engine) : Engine :=
  let e := e.emit (.event .ExecutionStarted)
  let e := e.execute_loop [] e.nodes.length
  e.emit (.event .ExecutionCompleted)

/-- Mirrors `Engine::output_nodes`: node weights whose record path is
`core/output`, in graph order. -/
def Engine.output_nodes (e : Engine) : List Node :=
  (e.nodes.map (·.2)).filter (fun n =>
    n.record.op_path.library = "core" ∧ n.record.op_path.operator = "output")

/-- Mirrors `Engine::result` (engine.rs lines 529-533). -/
def Engine.result (e : Engine) (index : Nat) : Option Value := do
  let n ← e.output_nodes.get? index
  let (_, v) ← n.input 0
  pure v

/-- Mirrors `Engine::results`. -/
def Engine.results (e : Engine) : List Value :=
  e.output_nodes.filterMap (fun n => (n.input 0).map (·.2))

def Engine.can_undo (e : Engine) : Bool := e.history.can_undo
def Engine.can_redo (e : Engine) : Bool := e.history.can_redo

/-- Outcome of a call that may panic. `Engine::apply_mutation` (engine.rs
lines 632-643) is `todo!()` in every arm, and `todo!()` panics. -/
inductive CallOutcome where
  | ok (e : Engine)
  | panics
deriving DecidableEq, Repr

/-- Mirrors `Engine::undo` (engine.rs lines 608-613): a popped mutation is
passed to `apply_mutation`, which panics in every match arm. -/
def Engine.undoOutcome (e : Engine) : CallOutcome :=
  match e.history.undo with
  | (some _, _) => .panics
  | (none, h) => .ok { e with history := h }

/-- Mirrors `Engine::redo` (engine.rs lines 615-620). -/
def Engine.redoOutcome (e : Engine) : CallOutcome :=
  match e.history.redo with
  | (some _, _) => .panics
  | (none, h) => .ok { e with history := h }

/-! ## Derived predicates and the reachable-state relation -/

/-- Edges terminating on a given `(node, input_slot)` pair. -/
def edge_drivers (edges : List Edge) (n s : Nat) : List Edge :=
  edges.filter (fun ed => ed.dst = n && ed.sink_slot = s)

/-- The invariant of claim C2: at most one edge terminates on any
`(node, input_slot)` pair. -/
def at_most_one_driver (e : Engine) : Prop :=
  ∀ n s, (edge_drivers e.edges n s).length ≤ 1

/-- The validation `Engine::connect` performs before its cycle check: both
nodes exist and `probe_connect` returns `Ok`. -/
def connect_probe_ok (e : Engine) (from_ to_ fs ts : Nat) : Bool :=
  match e.getNode from_, e.getNode to_ with
  | some fn, some tn => fn.probe_connect tn fs ts == .Ok
  | _, _ => false

/-- One public mutating Engine call, relating the state before to the state
after (the state is returned even when the call reports an error, matching
the partial-mutation behavior of the source). -/
inductive EngineStep : Engine → Engine → Prop where
  | add_node (e : Engine) (op : Op) : EngineStep e (e.add_node op).1
  | delete_node (e : Engine) (idx : Nat) : EngineStep e (e.delete_node idx).1
  | connect (e : Engine) (a b s t : Nat) : EngineStep e (e.connect a b s t).1
  | disconnect (e : Engine) (a b s t : Nat) : EngineStep e (e.disconnect a b s t).1
  | set_node_position (e : Engine) (idx : Nat) (p : ℤ × ℤ) :
      EngineStep e (e.set_node_position idx p).1
  | set_label (e : Engine) (idx : Nat) (l : String) : EngineStep e (e.set_label idx l)
  | edit_graph_input (e : Engine) (idx : Nat) (f : SlotDef → Value → Value) :
      EngineStep e (e.edit_graph_input idx f).1
  | edit_node_input (e : Engine) (idx slot : Nat) (f : SlotDef → Value → Value) :
      EngineStep e (e.edit_node_input idx slot f).1
  | edit_node_config (e : Engine) (idx slot : Nat) (f : SlotDef → Value → Value) :
      EngineStep e (e.edit_node_config idx slot f).1
  | edit_all_node_inputs (e : Engine) (idx : Nat) (f : SlotDef → Value → Value) :
      EngineStep e (e.edit_all_node_inputs idx f).1
  | edit_all_node_configs (e : Engine) (idx : Nat) (f : SlotDef → Value → Value) :
      EngineStep e (e.edit_all_node_configs idx f).1
  | upload_texture (e : Engine) (idx slot w h : Nat) :
      EngineStep e (e.upload_texture idx slot w h).1
  | execute (e : Engine) : EngineStep e e.execute

/-- Engine states reachable from `Engine::init` through the public
mutating API. -/
def ReachableEngine (e : Engine) : Prop :=
  Relation.ReflTransGen EngineStep Engine.init e

/-! ## Concrete scenario states used by the per-claim theorems -/

/-- Closure used by the tests: write 3.0 into an `F32` slot. -/
def set_f32 (q : ℤ) : SlotDef → Value → Value := fun _ v =>
  match v with
  | .F32 _ => .F32 q
  | v => v

def set_i32 (i : ℤ) : SlotDef → Value → Value := fun _ v =>
  match v with
  | .I32 _ => .I32 i
  | v => v

/-- Diamond of claim C1: Input A (index 0), Input B (index 1),
Arithmetic/Add (index 2), Output (index 3), edges A→Add:0, B→Add:1,
Add→Output:0, then `edit_graph_input` writes 3.0 into A and 4.0 into B. -/
def diamond_built : Engine :=
  let e := Engine.init
  let (e, _) := e.add_node (Op.input .Float (Value.F32 0))
  let (e, _) := e.add_node (Op.input .Float (Value.F32 0))
  let (e, _) := e.add_node (Op.arithmetic .Add)
  let (e, _) := e.add_node Op.output
  let (e, _) := e.connect 0 2 0 0
  let (e, _) := e.connect 1 2 0 1
  let (e, _) := e.connect 2 3 0 0
  let (e, _) := e.edit_graph_input 0 (set_f32 3)
  let (e, _) := e.edit_graph_input 1 (set_f32 4)
  e

/-- Claim C2 witness scenario: Input A (0), Input B (1), Arithmetic C (2),
edge A→C:0 already present. -/
def c2_s0 : Engine := Engine.init
def c2_s1 : Engine := (c2_s0.add_node (Op.input .Float (Value.F32 0))).1
def c2_s2 : Engine := (c2_s1.add_node (Op.input .Float (Value.F32 0))).1
def c2_s3 : Engine := (c2_s2.add_node (Op.arithmetic .Add)).1
def c2_s4 : Engine := (c2_s3.connect 0 2 0 0).1

/-- Claim C3 scenario: two Arithmetic nodes with an edge 0→1. -/
def c3_base : Engine :=
  let e := Engine.init
  let (e, _) := e.add_node (Op.arithmetic .Add)
  let (e, _) := e.add_node (Op.arithmetic .Add)
  let (e, _) := e.connect 0 1 0 0
  e

/-- Claim C4 scenario: Input (0) driving Arithmetic (1) at input slot 0, so
node 1 has exactly one incident edge, which is incoming. -/
def c4_base : Engine :=
  let e := Engine.init
  let (e, _) := e.add_node (Op.input .Float (Value.F32 0))
  let (e, _) := e.add_node (Op.arithmetic .Add)
  let (e, _) := e.connect 0 1 0 0
  e

/-- Claim C5 scenario: one texture-producing node - a fresh `Grayscale`
(`OperationFactory::build` boxes `T::default()`, so no context and
`match_input_dimensions = false`) - whose 512x512 output texture is
allocated by `sync_output_textures` through `ensure_texture` when the node
is added. -/
def c5_base : Engine := (Engine.init.add_node (Op.grayscale none false)).1

/-- Claim C8 scenarios: a fresh Arithmetic node, then a first dirtying edit
of input slot 0. -/
def c8_base : Engine := (Engine.init.add_node (Op.arithmetic .Add)).1

def c8_after1 : Engine := (c8_base.edit_node_input 0 0 (set_f32 5)).1

def c8_node0 : Node := (c8_base.getNode 0).getD (Node.new Op.output 0)

/-- Claim C9 scenario: an Arithmetic node after `Node::setup` (two declared
inputs), whose config is then edited to Abs (discriminant 8) and
reconfigured through `Node::configure`, leaving one declared input. -/
def c9_node : Node := ((Node.new (Op.arithmetic .Add) 1).setup).1

def c9_node_abs : Node := (((c9_node.edit_config 0 (set_i32 8)).1).configure).1

/-! ## Theorems -/

/-- C6: `ValueType::can_cast_to` is reflexive, `Any`-permissive as source
and target, and among distinct concrete types permits exactly I32→F32 and
F32→I32 (the third conjunct characterizes the whole relation); `Value::cast`
on `Null` returns `none` for every target type, `Any` included. -/
theorem c6_cast_rules :
    (∀ t : ValueType, t.can_cast_to t = true) ∧
    (∀ t : ValueType,
      ValueType.Any.can_cast_to t = true ∧ t.can_cast_to ValueType.Any = true) ∧
    (∀ a b : ValueType, a.can_cast_to b = true ↔
      (a = b ∨ a = ValueType.Any ∨ b = ValueType.Any ∨
       (a = ValueType.I32 ∧ b = ValueType.F32) ∨
       (a = ValueType.F32 ∧ b = ValueType.I32))) ∧
    (∀ t : ValueType, Value.Null.cast t = none) := by
  decide

/-- C10: `Engine::undo` (resp. `redo`) panics exactly when `can_undo`
(resp. `can_redo`) holds, because the popped mutation reaches
`apply_mutation`, whose every arm is `todo!()`; with an empty stack the call
returns Ok with the state unchanged. -/
theorem c10_undo_redo_panics : ∀ e : Engine,
    (e.undoOutcome = if e.can_undo then CallOutcome.panics else CallOutcome.ok e) ∧
    (e.redoOutcome = if e.can_redo then CallOutcome.panics else CallOutcome.ok e) := by
  intro e
  constructor
  · unfold Engine.undoOutcome History.undo Engine.can_undo History.can_undo
    cases h : e.history.undo_stack with
    | nil => simp [h]
    | cons a l =>
      rcases hg : (a :: l).getLast? with _ | m
      · exact absurd (List.getLast?_eq_none_iff.mp hg) (by simp)
      · simp [h, hg]
  · unfold Engine.redoOutcome History.redo Engine.can_redo History.can_redo
    cases h : e.history.redo_stack with
    | nil => simp [h]
    | cons a l =>
      rcases hg : (a :: l).getLast? with _ | m
      · exact absurd (List.getLast?_eq_none_iff.mp hg) (by simp)
      · simp [h, hg]

/-- C1: evaluation of the diamond scenario. `execute` visits the nodes in
dependency order (Inputs 0 and 1, then Add 2, then Output 3), but
`result(0)` is 0.0, not the claimed 7.0: `edit_graph_input` writes the
node's output buffer while `Input::execute` overwrites that buffer with the
operation's internal stored value (still 0.0). -/
theorem c1_diamond_result :
    diamond_built.execute.result 0 = some (Value.F32 0) ∧
    diamond_built.execute.result 0 ≠ some (Value.F32 7) ∧
    (diamond_built.execute.msgs.filter
        (fun m => m matches Message.event (Event.NodeExecuted _))) =
      [Message.event (.NodeExecuted 0), Message.event (.NodeExecuted 1),
       Message.event (.NodeExecuted 2), Message.event (.NodeExecuted 3)] := by
  decide

/-- C4: evaluation of `delete_node` on node 1 of `c4_base`, which has
exactly one incident edge (incoming, from node 0). The call succeeds and
removes the edge, but emits zero `Disconnect` mutations (petgraph
`edges()` yields only outgoing edges), against the claimed k = 1. -/
theorem c4_delete_node_no_disconnect :
    (c4_base.edges.filter (fun ed => ed.src = 1 || ed.dst = 1)).length = 1 ∧
    (c4_base.delete_node 1).2 = .ok () ∧
    ((c4_base.delete_node 1).1.msgs.drop c4_base.msgs.length).countP
      (fun m => m matches Message.mutation (Mutation.Disconnect ..)) = 0 ∧
    ((c4_base.delete_node 1).1.msgs.drop c4_base.msgs.length).countP
      (fun m => m matches Message.mutation (Mutation.DeleteNode ..)) = 1 ∧
    (c4_base.delete_node 1).1.edge_count = 0 := by
  decide

/-- C5: evaluation of `delete_node` on the texture-producing node of
`c5_base`. Its single output texture occupies pool entry 4, but the entry
was tagged `TextureOwner::Engine` by `alloc_texture`, so
`release_node_textures` removes nothing: entry 4 survives the deletion and
the pool size is unchanged (the four system textures do survive, as
claimed). -/
theorem c5_delete_node_leaks_texture :
    ((c5_base.getNode 0).map (fun n => n.output_values)) =
      some [Value.Texture { id := some 4, width := 512, height := 512, fmt := .RGBAu8 }] ∧
    c5_base.pool.get_texture 4 = some { width := 512, height := 512, owner := .Engine } ∧
    (c5_base.delete_node 0).2 = .ok () ∧
    (c5_base.delete_node 0).1.getNode 0 = none ∧
    (c5_base.delete_node 0).1.pool.get_texture 4 =
      some { width := 512, height := 512, owner := .Engine } ∧
    (c5_base.delete_node 0).1.pool.textures.length = c5_base.pool.textures.length := by
  decide

/-- C9: evaluation of the incoming-buffer invariant. After `Node::setup`
the Arithmetic node has 2 declared inputs and an incoming buffer of length
2; after its config is edited to Abs and `Node::configure` runs, the
declared inputs are re-derived (now 1) but the incoming buffer is not
(still length 2), breaking the claimed equality. -/
theorem c9_incoming_buffer_stale :
    (c9_node.input_count = 2 ∧ c9_node.incoming_input_values.length = 2) ∧
    c9_node_abs.input_count = 1 ∧ c9_node_abs.incoming_input_values.length = 2 := by
  decide

theorem setNode_edges (e : Engine) (i : Nat) (n : Node) :
    (e.setNode i n).edges = e.edges := rfl

theorem setNode_msgs (e : Engine) (i : Nat) (n : Node) :
    (e.setNode i n).msgs = e.msgs := rfl

theorem emit_edges (e : Engine) (m : Message) : (e.emit m).edges = e.edges := rfl

theorem sync_output_textures_edges (e : Engine) (i : Nat) (old : List Value) :
    (e.sync_output_textures i old).edges = e.edges := by
  unfold Engine.sync_output_textures
  split <;> rfl

theorem sync_output_textures_msgs (e : Engine) (i : Nat) (old : List Value) :
    (e.sync_output_textures i old).msgs = e.msgs := by
  unfold Engine.sync_output_textures
  split <;> rfl

theorem sync_output_textures_history (e : Engine) (i : Nat) (old : List Value) :
    (e.sync_output_textures i old).history = e.history := by
  unfold Engine.sync_output_textures
  split <;> rfl

theorem foldl_edges_eq {α : Type} (f : Engine → α → Engine)
    (hf : ∀ e a, (f e a).edges = e.edges) (l : List α) (e : Engine) :
    (l.foldl f e).edges = e.edges := by
  induction l generalizing e with
  | nil => rfl
  | cons a t ih => rw [List.foldl_cons, ih, hf]

theorem foldl_edges_sublist {α : Type} (f : Engine → α → Engine)
    (hf : ∀ e a, List.Sublist (f e a).edges e.edges) (l : List α) (e : Engine) :
    List.Sublist ((l.foldl f e).edges) e.edges := by
  induction l generalizing e with
  | nil => exact List.Sublist.refl _
  | cons a t ih => exact (ih (f e a)).trans (hf e a)

theorem remove_first_edge_sublist (p : Edge → Bool) (l : List Edge) :
    List.Sublist (remove_first_edge p l) l := by
  induction l with
  | nil => exact List.Sublist.refl _
  | cons a t ih =>
    unfold remove_first_edge
    by_cases h : p a
    · simp [h, List.sublist_cons_self]
    · simp only [h]
      exact ih.cons₂ a

theorem add_node_edges (e : Engine) (op : Op) : (e.add_node op).1.edges = e.edges := by
  unfold Engine.add_node
  dsimp only
  split
  · rfl
  · split
    · rfl
    · rw [emit_edges, sync_output_textures_edges, setNode_edges, setNode_edges]

theorem execute_node_edges (e : Engine) (idx : Nat) :
    (e.execute_node idx).edges = e.edges := by
  unfold Engine.execute_node
  split
  · rfl
  · rw [foldl_edges_eq]
    · rw [emit_edges, setNode_edges]
    · intro e a
      split
      · split
        · rw [setNode_edges]
        · rfl
      · rfl

theorem execute_loop_edges (fuel : Nat) (e : Engine) (visited : List Nat) :
    (e.execute_loop visited fuel).edges = e.edges := by
  induction fuel generalizing e visited with
  | zero => rfl
  | succ n ih =>
    unfold Engine.execute_loop
    split
    · rfl
    · rw [ih, execute_node_edges]

theorem execute_edges (e : Engine) : e.execute.edges = e.edges := by
  unfold Engine.execute
  rw [emit_edges, execute_loop_edges, emit_edges]

theorem disconnect_edges_sublist (e : Engine) (a b s t : Nat) :
    List.Sublist (e.disconnect a b s t).1.edges e.edges := by
  unfold Engine.disconnect
  split
  · exact List.Sublist.refl _
  · dsimp only
    split
    · exact List.Sublist.refl _
    · rw [emit_edges, sync_output_textures_edges]
      have h1 : ∀ (e1 : Engine) (tn : Option Node) (ts : Nat),
          (match tn with
            | some to_node => e1.setNode b (to_node.clear_incoming ts)
            | none => e1).edges = e1.edges := by
        intro e1 tn ts
        cases tn <;> rfl
      rw [h1]
      exact remove_first_edge_sublist _ _

theorem foldl_fst_edges_sublist_aux {α : Type}
    (f : Engine × Except Error Unit → α → Engine × Except Error Unit)
    (hf : ∀ acc a, List.Sublist (f acc a).1.edges acc.1.edges) :
    ∀ (l : List α) (acc : Engine × Except Error Unit),
      List.Sublist ((l.foldl f acc).1.edges) acc.1.edges
  | [], _ => List.Sublist.refl _
  | a :: t, acc =>
    (foldl_fst_edges_sublist_aux f hf t (f acc a)).trans (hf acc a)

theorem foldl_fst_edges_sublist {α : Type}
    {f : Engine × Except Error Unit → α → Engine × Except Error Unit}
    {l : List α} {acc out : Engine × Except Error Unit}
    (hf : ∀ acc a, List.Sublist (f acc a).1.edges acc.1.edges)
    (heq : l.foldl f acc = out) : List.Sublist out.1.edges acc.1.edges := by
  subst heq
  exact foldl_fst_edges_sublist_aux f hf l acc

theorem delete_node_edges_sublist (e : Engine) (idx : Nat) :
    List.Sublist (e.delete_node idx).1.edges e.edges := by
  unfold Engine.delete_node
  dsimp only
  split
  · next e1 err heq =>
    refine foldl_fst_edges_sublist ?_ heq
    intro acc a
    rcases acc with ⟨e2, res⟩
    rcases a with ⟨x, y, z, u⟩
    cases res with
    | error err2 => exact List.Sublist.refl _
    | ok _ => exact disconnect_edges_sublist e2 x y z u
  · next e1 u heq =>
    have hsub : List.Sublist e1.edges e.edges := by
      refine foldl_fst_edges_sublist ?_ heq
      intro acc a
      rcases acc with ⟨e2, res⟩
      rcases a with ⟨x, y, z, w⟩
      cases res with
      | error err2 => exact List.Sublist.refl _
      | ok _ => exact disconnect_edges_sublist e2 x y z w
    refine List.Sublist.trans ?_ hsub
    split
    · rw [emit_edges]
      exact List.filter_sublist _
    · exact List.filter_sublist _

theorem disconnect_invalid_edges_sublist (e : Engine) (idx : Nat) :
    List.Sublist (e.disconnect_invalid_edges idx).edges e.edges := by
  unfold Engine.disconnect_invalid_edges
  refine foldl_edges_sublist _ ?_ _ e
  intro e1 ed
  dsimp only
  split
  · exact List.Sublist.refl _
  · rw [emit_edges]
    have h1 : ∀ (e2 : Engine),
        (match e2.getNode ed.dst with
          | some tn => e2.setNode ed.dst (tn.clear_incoming ed.sink_slot)
          | none => e2).edges = e2.edges := by
      intro e2
      cases e2.getNode ed.dst <;> rfl
    rw [h1]
    exact remove_first_edge_sublist _ _

theorem reconfigure_node_edges_sublist (e : Engine) (idx : Nat) :
    List.Sublist (e.reconfigure_node idx).1.edges e.edges := by
  unfold Engine.reconfigure_node
  split
  · exact List.Sublist.refl _
  · dsimp only
    split
    · exact List.Sublist.refl _
    · rw [sync_output_textures_edges]
      exact disconnect_invalid_edges_sublist _ idx

theorem edit_node_config_edges_sublist (e : Engine) (idx slot : Nat)
    (f : SlotDef → Value → Value) :
    List.Sublist (e.edit_node_config idx slot f).1.edges e.edges := by
  unfold Engine.edit_node_config
  split
  · exact List.Sublist.refl _
  · dsimp only
    split
    · exact List.Sublist.refl _
    · split
      · exact reconfigure_node_edges_sublist _ idx
      · exact List.Sublist.refl _

theorem edit_all_node_configs_edges_sublist (e : Engine) (idx : Nat)
    (f : SlotDef → Value → Value) :
    List.Sublist (e.edit_all_node_configs idx f).1.edges e.edges := by
  unfold Engine.edit_all_node_configs
  split
  · exact List.Sublist.refl _
  · dsimp only
    split
    · split
      · next e2 err heq =>
        have h2 := congrArg (fun p => p.1.edges) heq
        dsimp only at h2
        rw [← h2]
        exact reconfigure_node_edges_sublist _ idx
      · next e2 u heq =>
        have h2 := congrArg (fun p => p.1.edges) heq
        dsimp only at h2
        rw [← h2]
        exact reconfigure_node_edges_sublist _ idx
    · exact List.Sublist.refl _

theorem edit_node_input_edges (e : Engine) (idx slot : Nat)
    (f : SlotDef → Value → Value) :
    (e.edit_node_input idx slot f).1.edges = e.edges := by
  unfold Engine.edit_node_input
  split
  · rfl
  · dsimp only
    split
    · rfl
    · split <;> rfl

theorem edit_graph_input_edges (e : Engine) (idx : Nat)
    (f : SlotDef → Value → Value) :
    (e.edit_graph_input idx f).1.edges = e.edges := by
  unfold Engine.edit_graph_input
  split
  · rfl
  · split
    · rfl
    · dsimp only
      split
      · rfl
      · split <;> rfl

theorem edit_all_node_inputs_edges (e : Engine) (idx : Nat)
    (f : SlotDef → Value → Value) :
    (e.edit_all_node_inputs idx f).1.edges = e.edges := by
  unfold Engine.edit_all_node_inputs
  split
  · rfl
  · dsimp only
    split <;> rfl

theorem set_node_position_edges (e : Engine) (idx : Nat) (p : ℤ × ℤ) :
    (e.set_node_position idx p).1.edges = e.edges := by
  unfold Engine.set_node_position
  split <;> rfl

theorem set_label_edges (e : Engine) (idx : Nat) (l : String) :
    (e.set_label idx l).edges = e.edges := by
  unfold Engine.set_label
  split <;> rfl

theorem upload_texture_edges (e : Engine) (idx slot w h : Nat) :
    (e.upload_texture idx slot w h).1.edges = e.edges := by
  unfold Engine.upload_texture
  split
  · rfl
  · split
    · rfl
    · split
      · split <;> rfl
      · rfl

theorem remove_first_edge_filter_count (l : List Edge) (x : Edge) (p : Edge → Bool)
    (hx : x ∈ l) (hpx : p x = true) :
    ((remove_first_edge (fun y => y == x) l).filter p).length + 1 =
      (l.filter p).length := by
  induction l with
  | nil => cases hx
  | cons a t ih =>
    unfold remove_first_edge
    by_cases hax : (a == x) = true
    · have ha : a = x := beq_iff_eq.mp hax
      subst ha
      simp [hax, List.filter_cons, hpx]
    · have ha : a ≠ x := fun hc => hax (beq_iff_eq.mpr hc)
      have hx' : x ∈ t := by
        cases hx with
        | head => exact absurd rfl ha
        | tail _ h => exact h
      simp only [hax, if_neg, Bool.false_eq_true, not_false_iff, ite_false]
      rw [List.filter_cons, List.filter_cons]
      by_cases hpa : p a
      · simp only [hpa, ite_true, List.length_cons]
        have := ih hx'
        omega
      · simp only [hpa, Bool.false_eq_true, ite_false]
        exact ih hx'

theorem find?_eq_of_count_le_one (l : List Edge) (p : Edge → Bool) (x : Edge)
    (hcount : (l.filter p).length ≤ 1) (hx : x ∈ l) (hpx : p x = true) :
    l.find? p = some x := by
  induction l with
  | nil => cases hx
  | cons a t ih =>
    by_cases hpa : p a = true
    · have hft : (t.filter p).length = 0 := by
        rw [List.filter_cons, if_pos hpa] at hcount
        simp only [List.length_cons] at hcount
        omega
      have hxa : x = a := by
        cases hx with
        | head => rfl
        | tail _ h =>
          exfalso
          have : x ∈ t.filter p := List.mem_filter.mpr ⟨h, hpx⟩
          rw [List.eq_nil_of_length_eq_zero hft] at this
          cases this
      rw [List.find?_cons, hpa]
      rw [hxa]
    · have hxt : x ∈ t := by
        cases hx with
        | head => exact absurd hpx hpa
        | tail _ h => exact h
      rw [List.find?_cons]
      rw [show p a = false from Bool.eq_false_iff.mpr hpa]
      refine ih ?_ hxt
      rw [List.filter_cons] at hcount
      simp only [hpa, Bool.false_eq_true, ite_false] at hcount
      exact hcount

theorem emit_mutation_dirty_msgs (e : Engine) (mu : Mutation)
    (h : mu.dirties_graph = true) :
    (e.emit (.mutation mu)).msgs =
      e.msgs ++ [Message.mutation mu, Message.event .GraphDirtied] := by
  show e.msgs ++ [Message.mutation mu] ++
      (if mu.dirties_graph then [Message.event .GraphDirtied] else []) = _
  rw [h]
  rw [List.append_assoc]
  rfl

/-- Characterization of a successful `Engine::connect`: the replaced driver
(if any) is removed and `Disconnect` emitted first, then the new edge is
appended and `Connect` emitted. -/
theorem connect_ok_characterization (e : Engine) (B C s ts : Nat) (nb nc : Node)
    (hB : e.getNode B = some nb) (hC : e.getNode C = some nc)
    (hprobe : nb.probe_connect nc s ts = .Ok)
    (hpath : has_path_connecting e.edges C B = false) :
    ((e.connect B C s ts).2 = .ok ()) ∧
    (match e.edges.find? (fun ed => ed.dst = C && ed.sink_slot = ts) with
     | some old =>
       (e.connect B C s ts).1.edges =
         remove_first_edge (fun y => y == old) e.edges ++
           [{ src := B, dst := C, source_slot := s, sink_slot := ts }] ∧
       (e.connect B C s ts).1.msgs =
         e.msgs ++ [.mutation (.Disconnect old.src old.source_slot C ts),
           .event .GraphDirtied, .mutation (.Connect B s C ts), .event .GraphDirtied]
     | none =>
       (e.connect B C s ts).1.edges =
         e.edges ++ [{ src := B, dst := C, source_slot := s, sink_slot := ts }] ∧
       (e.connect B C s ts).1.msgs =
         e.msgs ++ [.mutation (.Connect B s C ts), .event .GraphDirtied]) := by
  have hconn : e.connect B C s ts =
      (let existing := e.edges.find? (fun ed => ed.dst = C && ed.sink_slot = ts)
       let e1 := match existing with
         | some old =>
           let remaining := remove_first_edge (fun ed => ed == old) e.edges
           let e1 := { e with edges := remaining }
           e1.emit (.mutation (.Disconnect old.src old.source_slot C ts))
         | none => e
       let new_edge : Edge := { src := B, dst := C, source_slot := s, sink_slot := ts }
       let e2 := { e1 with edges := e1.edges ++ [new_edge] }
       let old_outputs := match e2.getNode C with
         | some n => n.snapshot_outputs
         | none => []
       let e3 := e2.sync_output_textures C old_outputs
       let e4 := e3.emit (.mutation (.Connect B s C ts))
       (e4, .ok ())) := by
    unfold Engine.connect
    rw [hB, hC]
    dsimp only
    rw [hprobe, hpath]
    rfl
  rw [hconn]
  cases hfind : e.edges.find? (fun ed => ed.dst = C && ed.sink_slot = ts) with
  | none =>
    refine ⟨rfl, ?_⟩
    dsimp only
    constructor
    · rw [emit_edges, sync_output_textures_edges]
    · rw [emit_mutation_dirty_msgs _ (.Connect B s C ts) rfl]
      rw [sync_output_textures_msgs]
  | some old =>
    refine ⟨rfl, ?_⟩
    dsimp only
    constructor
    · rw [emit_edges, sync_output_textures_edges]
      rfl
    · rw [emit_mutation_dirty_msgs _ (.Connect B s C ts) rfl]
      rw [sync_output_textures_msgs]
      dsimp only
      rw [emit_mutation_dirty_msgs _ (.Disconnect old.src old.source_slot C ts) rfl]
      rw [List.append_assoc]
      rfl

theorem inv_of_edges_eq {x y : Engine} (hxy : x.edges = y.edges)
    (hy : at_most_one_driver y) : at_most_one_driver x := by
  intro n s
  unfold at_most_one_driver edge_drivers at *
  rw [hxy]
  exact hy n s

theorem inv_of_edges_sublist {x y : Engine} (hxy : List.Sublist x.edges y.edges)
    (hy : at_most_one_driver y) : at_most_one_driver x := by
  intro n s
  exact le_trans (List.Sublist.length_le (hxy.filter _)) (hy n s)

theorem connect_preserves_inv (e : Engine) (a b s t : Nat)
    (hinv : at_most_one_driver e) : at_most_one_driver (e.connect a b s t).1 := by
  cases hA : e.getNode a with
  | none =>
    refine inv_of_edges_eq ?_ hinv
    unfold Engine.connect
    rw [hA]
  | some na =>
    cases hB : e.getNode b with
    | none =>
      refine inv_of_edges_eq ?_ hinv
      unfold Engine.connect
      rw [hA, hB]
    | some nb0 =>
      cases hprobe : na.probe_connect nb0 s t with
      | NoSourceSlot =>
        refine inv_of_edges_eq ?_ hinv
        unfold Engine.connect
        rw [hA, hB]
        dsimp only
        rw [hprobe]
      | NoSinkSlot =>
        refine inv_of_edges_eq ?_ hinv
        unfold Engine.connect
        rw [hA, hB]
        dsimp only
        rw [hprobe]
      | Incompatible =>
        refine inv_of_edges_eq ?_ hinv
        unfold Engine.connect
        rw [hA, hB]
        dsimp only
        rw [hprobe]
      | CreatesLoop =>
        refine inv_of_edges_eq ?_ hinv
        unfold Engine.connect
        rw [hA, hB]
        dsimp only
        rw [hprobe]
      | Ok =>
        by_cases hpath : has_path_connecting e.edges b a = true
        · refine inv_of_edges_eq ?_ hinv
          unfold Engine.connect
          rw [hA, hB]
          dsimp only
          rw [hprobe, hpath]
          rfl
        · have hpath' : has_path_connecting e.edges b a = false :=
            Bool.eq_false_iff.mpr hpath
          obtain ⟨-, hchar⟩ :=
            connect_ok_characterization e a b s t na nb0 hA hB hprobe hpath'
          intro n sl
          unfold edge_drivers
          cases hfind : e.edges.find? (fun ed => ed.dst = b && ed.sink_slot = t) with
          | some old =>
            rw [hfind] at hchar
            rw [hchar.1, List.filter_append, List.length_append]
            by_cases hmatch : n = b ∧ sl = t
            · obtain ⟨rfl, rfl⟩ := hmatch
              have hpx := List.find?_some hfind
              have hmem := List.mem_of_find?_eq_some hfind
              have hold := remove_first_edge_filter_count e.edges old
                (fun ed => ed.dst = n && ed.sink_slot = sl) hmem hpx
              have hc := hinv n sl
              unfold edge_drivers at hc
              have hone : (List.filter (fun ed => ed.dst = n && ed.sink_slot = sl)
                  [({ src := a, dst := n, source_slot := s, sink_slot := sl } : Edge)]).length ≤ 1 := by
                have hs := (@List.filter_sublist Edge
                  (fun ed => ed.dst = n && ed.sink_slot = sl)
                  [({ src := a, dst := n, source_slot := s, sink_slot := sl } : Edge)]).length_le
                simp only [List.length_cons, List.length_nil] at hs
                omega
              omega
            · have hfilter_new : ∀ ne : Edge, ne.dst = b → ne.sink_slot = t →
                  List.filter (fun ed => ed.dst = n && ed.sink_slot = sl) [ne] = [] := by
                intro ne hd hs
                simp only [List.filter_cons, List.filter_nil]
                rw [if_neg]
                intro hc
                rw [Bool.and_eq_true, decide_eq_true_eq, decide_eq_true_eq] at hc
                exact hmatch ⟨(hd ▸ hc.1).symm ▸ rfl, (hs ▸ hc.2).symm ▸ rfl⟩
              rw [hfilter_new ⟨a, b, s, t⟩ rfl rfl]
              have hsub := (remove_first_edge_sublist (fun y => y == old)
                e.edges).filter (fun ed => ed.dst = n && ed.sink_slot = sl)
              have hc := hinv n sl
              unfold edge_drivers at hc
              have := hsub.length_le
              simp only [List.length_nil]
              omega
          | none =>
            rw [hfind] at hchar
            rw [hchar.1, List.filter_append, List.length_append]
            by_cases hmatch : n = b ∧ sl = t
            · obtain ⟨rfl, rfl⟩ := hmatch
              have hempty : (e.edges.filter
                  (fun ed => ed.dst = n && ed.sink_slot = sl)).length = 0 := by
                have hnone := List.find?_eq_none.mp hfind
                rw [List.length_eq_zero, List.filter_eq_nil_iff]
                intro ed hed
                exact fun hc => (hnone ed hed) hc
              have hone : (List.filter (fun ed => ed.dst = n && ed.sink_slot = sl)
                  [({ src := a, dst := n, source_slot := s, sink_slot := sl } : Edge)]).length ≤ 1 := by
                have hs := (@List.filter_sublist Edge
                  (fun ed => ed.dst = n && ed.sink_slot = sl)
                  [({ src := a, dst := n, source_slot := s, sink_slot := sl } : Edge)]).length_le
                simp only [List.length_cons, List.length_nil] at hs
                omega
              omega
            · have hfilter_new : ∀ ne : Edge, ne.dst = b → ne.sink_slot = t →
                  List.filter (fun ed => ed.dst = n && ed.sink_slot = sl) [ne] = [] := by
                intro ne hd hs
                simp only [List.filter_cons, List.filter_nil]
                rw [if_neg]
                intro hc
                rw [Bool.and_eq_true, decide_eq_true_eq, decide_eq_true_eq] at hc
                exact hmatch ⟨(hd ▸ hc.1).symm ▸ rfl, (hs ▸ hc.2).symm ▸ rfl⟩
              rw [hfilter_new ⟨a, b, s, t⟩ rfl rfl]
              have hc := hinv n sl
              unfold edge_drivers at hc
              simp only [List.length_nil]
              omega

theorem engine_step_preserves_inv {e e' : Engine} (h : EngineStep e e')
    (hinv : at_most_one_driver e) : at_most_one_driver e' := by
  cases h with
  | add_node op => exact inv_of_edges_eq (add_node_edges e op) hinv
  | delete_node idx => exact inv_of_edges_sublist (delete_node_edges_sublist e idx) hinv
  | connect a b s t => exact connect_preserves_inv e a b s t hinv
  | disconnect a b s t => exact inv_of_edges_sublist (disconnect_edges_sublist e a b s t) hinv
  | set_node_position idx p => exact inv_of_edges_eq (set_node_position_edges e idx p) hinv
  | set_label idx l => exact inv_of_edges_eq (set_label_edges e idx l) hinv
  | edit_graph_input idx f => exact inv_of_edges_eq (edit_graph_input_edges e idx f) hinv
  | edit_node_input idx slot f =>
    exact inv_of_edges_eq (edit_node_input_edges e idx slot f) hinv
  | edit_node_config idx slot f =>
    exact inv_of_edges_sublist (edit_node_config_edges_sublist e idx slot f) hinv
  | edit_all_node_inputs idx f =>
    exact inv_of_edges_eq (edit_all_node_inputs_edges e idx f) hinv
  | edit_all_node_configs idx f =>
    exact inv_of_edges_sublist (edit_all_node_configs_edges_sublist e idx f) hinv
  | upload_texture idx slot w hh =>
    exact inv_of_edges_eq (upload_texture_edges e idx slot w hh) hinv
  | execute => exact inv_of_edges_eq (execute_edges e) hinv

theorem init_inv : at_most_one_driver Engine.init := by
  intro n s
  exact Nat.zero_le 1

theorem subset_reach_step (edges : List Edge) (s : List Nat) : s ⊆ reach_step edges s :=
  fun _ hx => List.mem_append_left _ hx

theorem subset_reach_iter (edges : List Edge) (n : Nat) (s : List Nat) :
    s ⊆ reach_iter edges n s := by
  induction n generalizing s with
  | zero => exact fun _ hx => hx
  | succ n ih =>
    intro x hx
    exact ih (reach_step edges s) (subset_reach_step edges s hx)

/-- An edge a→b in the list yields a path in the sense of the engine's
`has_path_connecting` check. -/
theorem edge_has_path (edges : List Edge) (ed : Edge) (a b : Nat)
    (hmem : ed ∈ edges) (hsrc : ed.src = a) (hdst : ed.dst = b) :
    has_path_connecting edges a b = true := by
  unfold has_path_connecting
  rw [decide_eq_true_eq]
  show b ∈ reach_iter edges (edges.length + 1) [a]
  have hstep : b ∈ reach_step edges [a] := by
    by_cases hab : b ∈ [a]
    · exact subset_reach_step edges [a] hab
    · unfold reach_step
      refine List.mem_append_right _ ?_
      rw [List.mem_dedup]
      refine List.mem_map.mpr ⟨ed, ?_, hdst⟩
      rw [List.mem_filter]
      refine ⟨hmem, ?_⟩
      rw [decide_eq_true_eq]
      constructor
      · rw [hsrc]; exact List.mem_singleton.mpr rfl
      · rw [hdst]; exact hab
  show b ∈ reach_iter edges edges.length (reach_step edges [a])
  exact subset_reach_iter edges edges.length (reach_step edges [a]) hstep

theorem history_try_coalesce_none (h : History) (m : Mutation)
    (hne : ∀ lastm, h.undo_stack.getLast? = some lastm →
      lastm.coalesce_target ≠ m.coalesce_target) :
    h.try_coalesce m = none := by
  unfold History.try_coalesce
  cases hg : h.undo_stack.getLast? with
  | none => rfl
  | some lastm =>
    have hne' := hne lastm hg
    by_cases hnt : lastm.coalesce_target = CoalesceTarget.NoTarget
    · simp [hnt]
    · simp [hnt, hne']

theorem history_push_no_coalesce (h : History) (m : Mutation)
    (hne : ∀ lastm, h.undo_stack.getLast? = some lastm →
      lastm.coalesce_target ≠ m.coalesce_target) :
    h.push m = History.trim
      { h with undo_stack := h.undo_stack ++ [m], redo_stack := [] } := by
  unfold History.push
  rw [history_try_coalesce_none h m hne]

theorem history_push_coalesce_move (h : History) (n : Nat) (o x y z : ℤ × ℤ)
    (hg : h.undo_stack.getLast? = some (.MoveNode n o x)) :
    h.push (.MoveNode n y z) =
      { h with undo_stack := h.undo_stack.dropLast ++ [Mutation.MoveNode n o z] } := by
  unfold History.push History.try_coalesce
  simp [hg, Mutation.coalesce_target]

theorem history_trim_concat (u r : List Mutation) (m : Mutation) (mx : Nat)
    (hmax : 0 < mx) :
    History.trim { undo_stack := u ++ [m], redo_stack := r, max_size := mx } =
      { undo_stack := u.drop (u.length + 1 - mx) ++ [m], redo_stack := r,
        max_size := mx } := by
  unfold History.trim
  have hle : u.length + 1 - mx ≤ u.length := by omega
  simp [List.drop_append_of_le_length hle]

/-- C7: three consecutive `MoveNode` mutations for one node (with no
intervening mutation, and a history whose current top does not itself
coalesce with them) collapse into the single entry a lone push of the
combined move would produce; that entry records the first mutation's
`old_position`, so its inverse is a `MoveNode` targeting that position. -/
theorem c7_move_node_coalesce (h : History) (n : Nat) (p0 p1 p2 p3 : ℤ × ℤ)
    (hmax : 0 < h.max_size)
    (htop : ∀ m, h.undo_stack.getLast? = some m →
      m.coalesce_target ≠ CoalesceTarget.NodePosition n) :
    (((h.push (.MoveNode n p0 p1)).push (.MoveNode n p1 p2)).push (.MoveNode n p2 p3)
        = h.push (.MoveNode n p0 p3)) ∧
    (((h.push (.MoveNode n p0 p1)).push (.MoveNode n p1 p2)).push
        (.MoveNode n p2 p3)).undo_stack.getLast? = some (.MoveNode n p0 p3) ∧
    (Mutation.MoveNode n p0 p3).inverse = .MoveNode n p3 p0 := by
  obtain ⟨u, r, mx⟩ := h
  simp only [History.max_size] at hmax
  simp only [History.undo_stack] at htop
  have hne1 : ∀ lastm, u.getLast? = some lastm →
      lastm.coalesce_target ≠ (Mutation.MoveNode n p0 p1).coalesce_target := by
    intro lastm hl
    simpa [Mutation.coalesce_target] using htop lastm hl
  have hne2 : ∀ lastm, u.getLast? = some lastm →
      lastm.coalesce_target ≠ (Mutation.MoveNode n p0 p3).coalesce_target := by
    intro lastm hl
    simpa [Mutation.coalesce_target] using htop lastm hl
  have h1 : History.push ⟨u, r, mx⟩ (.MoveNode n p0 p1) =
      ⟨u.drop (u.length + 1 - mx) ++ [Mutation.MoveNode n p0 p1], [], mx⟩ := by
    rw [history_push_no_coalesce _ _ hne1]
    exact history_trim_concat u [] (.MoveNode n p0 p1) mx hmax
  have h1' : History.push ⟨u, r, mx⟩ (.MoveNode n p0 p3) =
      ⟨u.drop (u.length + 1 - mx) ++ [Mutation.MoveNode n p0 p3], [], mx⟩ := by
    rw [history_push_no_coalesce _ _ hne2]
    exact history_trim_concat u [] (.MoveNode n p0 p3) mx hmax
  have h2 : (History.push ⟨u, r, mx⟩ (.MoveNode n p0 p1)).push (.MoveNode n p1 p2) =
      ⟨u.drop (u.length + 1 - mx) ++ [Mutation.MoveNode n p0 p2], [], mx⟩ := by
    rw [h1]
    rw [history_push_coalesce_move _ n p0 p1 p1 p2 (by
      simp [History.undo_stack, List.getLast?_concat])]
    simp [List.dropLast_concat]
  have h3 : ((History.push ⟨u, r, mx⟩ (.MoveNode n p0 p1)).push
        (.MoveNode n p1 p2)).push (.MoveNode n p2 p3) =
      ⟨u.drop (u.length + 1 - mx) ++ [Mutation.MoveNode n p0 p3], [], mx⟩ := by
    rw [h2]
    rw [history_push_coalesce_move _ n p0 p2 p2 p3 (by
      simp [History.undo_stack, List.getLast?_concat])]
    simp [List.dropLast_concat]
  refine ⟨by rw [h3, h1'], ?_, rfl⟩
  rw [h3]
  simp [History.undo_stack, List.getLast?_concat]

/-- C7 witness: an empty default history (max size 100) with concrete
positions. -/
theorem c7_move_node_coalesce_witness :
    (0 < History.default.max_size ∧
      ∀ m, History.default.undo_stack.getLast? = some m →
        m.coalesce_target ≠ CoalesceTarget.NodePosition 0) ∧
    (((History.default.push (.MoveNode 0 (0, 0) (1, 1))).push
          (.MoveNode 0 (1, 1) (2, 2))).push (.MoveNode 0 (2, 2) (5, 5))
        = History.default.push (.MoveNode 0 (0, 0) (5, 5))) ∧
    (((History.default.push (.MoveNode 0 (0, 0) (1, 1))).push
          (.MoveNode 0 (1, 1) (2, 2))).push
        (.MoveNode 0 (2, 2) (5, 5))).undo_stack.getLast? =
      some (.MoveNode 0 (0, 0) (5, 5)) ∧
    (Mutation.MoveNode 0 (0, 0) (5, 5)).inverse = .MoveNode 0 (5, 5) (0, 0) :=
  ⟨⟨by decide, by intro m hm; cases hm⟩,
   c7_move_node_coalesce History.default 0 (0, 0) (1, 1) (2, 2) (5, 5)
     (by decide) (by intro m hm; cases hm)⟩

/-- C2: in every engine state reachable through the public mutating API, at
most one edge terminates on any `(node, input_slot)` pair; and on any state
satisfying that invariant, a successful `connect(B, C, s, 0)` over an
existing driver A→C:0 leaves exactly one edge into C:0 - the new one from
B - and emits the `Disconnect` for the old edge before the `Connect` (each
followed by the synthetic `GraphDirtied` of `emit`). -/
theorem c2_single_driver_per_input :
    (∀ e, ReachableEngine e → at_most_one_driver e) ∧
    (∀ e A C sa ts B s, at_most_one_driver e →
      ({ src := A, dst := C, source_slot := sa, sink_slot := ts } : Edge) ∈ e.edges →
      connect_probe_ok e B C s ts = true →
      has_path_connecting e.edges C B = false →
      (e.connect B C s ts).2 = .ok () ∧
      edge_drivers (e.connect B C s ts).1.edges C ts =
        [{ src := B, dst := C, source_slot := s, sink_slot := ts }] ∧
      (e.connect B C s ts).1.msgs =
        e.msgs ++ [.mutation (.Disconnect A sa C ts), .event .GraphDirtied,
          .mutation (.Connect B s C ts), .event .GraphDirtied]) := by
  constructor
  · intro e h
    induction h with
    | refl => exact init_inv
    | tail _ hstep ih => exact engine_step_preserves_inv hstep ih
  · intro e A C sa ts B s hinv hedge hprobe hpath
    have hpx : (fun ed => ed.dst = C && ed.sink_slot = ts)
        ({ src := A, dst := C, source_slot := sa, sink_slot := ts } : Edge) = true := by
      simp
    have hcount := hinv C ts
    unfold edge_drivers at hcount
    have hfind := find?_eq_of_count_le_one e.edges
      (fun ed => ed.dst = C && ed.sink_slot = ts)
      ({ src := A, dst := C, source_slot := sa, sink_slot := ts } : Edge)
      hcount hedge hpx
    unfold connect_probe_ok at hprobe
    cases hB : e.getNode B with
    | none => rw [hB] at hprobe; cases hC : e.getNode C <;> simp [hC] at hprobe
    | some nb =>
      cases hC : e.getNode C with
      | none => rw [hB, hC] at hprobe; simp at hprobe
      | some nc =>
        rw [hB, hC] at hprobe
        have hpr : nb.probe_connect nc s ts = .Ok := of_decide_eq_true hprobe
        obtain ⟨hok, hm⟩ :=
          connect_ok_characterization e B C s ts nb nc hB hC hpr hpath
        rw [hfind] at hm
        obtain ⟨hedges, hmsgs⟩ := hm
        refine ⟨hok, ?_, hmsgs⟩
        unfold edge_drivers
        rw [hedges, List.filter_append]
        have hmem_filter : (⟨A, C, sa, ts⟩ : Edge) ∈
            e.edges.filter (fun ed => ed.dst = C && ed.sink_slot = ts) :=
          List.mem_filter.mpr ⟨hedge, hpx⟩
        have hge : 1 ≤ (e.edges.filter
            (fun ed => ed.dst = C && ed.sink_slot = ts)).length :=
          List.length_pos.mpr (List.ne_nil_of_mem hmem_filter)
        have hrem := remove_first_edge_filter_count e.edges (⟨A, C, sa, ts⟩ : Edge)
          (fun ed => ed.dst = C && ed.sink_slot = ts) hedge hpx
        have hzero : ((remove_first_edge
            (fun y => y == (⟨A, C, sa, ts⟩ : Edge)) e.edges).filter
            (fun ed => ed.dst = C && ed.sink_slot = ts)).length = 0 := by
          omega
        rw [List.length_eq_zero] at hzero
        rw [hzero]
        simp

/-- C2 witness: on the reachable state `c2_s4` (Input 0, Input 1,
Arithmetic 2, edge 0→2:0), the invariant holds at (2, 0), and
`connect(1, 2, 0, 0)` replaces the driver with the expected messages. -/
theorem c2_single_driver_per_input_witness :
    (edge_drivers c2_s4.edges 2 0).length ≤ 1 ∧
    ((c2_s4.connect 1 2 0 0).2 = .ok () ∧
     edge_drivers (c2_s4.connect 1 2 0 0).1.edges 2 0 =
       [{ src := 1, dst := 2, source_slot := 0, sink_slot := 0 }] ∧
     (c2_s4.connect 1 2 0 0).1.msgs =
       c2_s4.msgs ++ [.mutation (.Disconnect 0 0 2 0), .event .GraphDirtied,
         .mutation (.Connect 1 0 2 0), .event .GraphDirtied]) := by
  have r0 : ReachableEngine c2_s0 := Relation.ReflTransGen.refl
  have r1 : ReachableEngine c2_s1 :=
    r0.tail (EngineStep.add_node c2_s0 (Op.input .Float (Value.F32 0)))
  have r2 : ReachableEngine c2_s2 :=
    r1.tail (EngineStep.add_node c2_s1 (Op.input .Float (Value.F32 0)))
  have r3 : ReachableEngine c2_s3 :=
    r2.tail (EngineStep.add_node c2_s2 (Op.arithmetic .Add))
  have r4 : ReachableEngine c2_s4 := r3.tail (EngineStep.connect c2_s3 0 2 0 0)
  have hinv := c2_single_driver_per_input.1 c2_s4 r4
  exact ⟨hinv 2 0,
    c2_single_driver_per_input.2 c2_s4 0 2 0 0 1 0 hinv (by decide) (by decide)
      (by decide)⟩

/-- C3 (amended): when the slots pass validation (`probe_connect` returns
`Ok`) and the graph contains a directed path from A to B - for example an
edge A→B, per the first conjunct - `connect(B, A, from_slot, to_slot)`
returns `CreatesLoop` with the engine (graph, node values, history, trace)
exactly as before the call. When validation fails a slot/type error is
returned first instead. -/
theorem c3_connect_creates_loop (e : Engine) (A B fs ts : Nat)
    (hprobe : connect_probe_ok e B A fs ts = true) :
    (∀ ed ∈ e.edges, ed.src = A → ed.dst = B →
      has_path_connecting e.edges A B = true) ∧
    (has_path_connecting e.edges A B = true →
      e.connect B A fs ts = (e, .error Error.CreatesLoop)) := by
  constructor
  · intro ed hmem hsrc hdst
    exact edge_has_path e.edges ed A B hmem hsrc hdst
  · intro hpath
    unfold connect_probe_ok at hprobe
    cases hb : e.getNode B with
    | none => rw [hb] at hprobe; cases ha : e.getNode A <;> simp [ha] at hprobe
    | some nb =>
      cases ha : e.getNode A with
      | none => rw [hb, ha] at hprobe; simp at hprobe
      | some na =>
        rw [hb, ha] at hprobe
        have hpr : nb.probe_connect na fs ts = .Ok := by
          exact of_decide_eq_true hprobe
        unfold Engine.connect
        rw [hb, ha]
        dsimp only
        rw [hpr, hpath]
        simp

/-- C3 counterexample to the claim as stated: with an edge 0→1 present (a
path from node 0 to node 1), `connect(1, 0, 5, 0)` does not return
`CreatesLoop` - slot validation runs first and reports `NoOutputSlot 5`. -/
theorem c3_counterexample_slot_error_first :
    c3_base.edges = [{ src := 0, dst := 1, source_slot := 0, sink_slot := 0 }] ∧
    (c3_base.connect 1 0 5 0).2 = Except.error (Error.NoOutputSlot 5) ∧
    (c3_base.connect 1 0 5 0).2 ≠ Except.error Error.CreatesLoop := by
  decide

/-- C3 witness: on `c3_base` (edge 0→1, both Arithmetic nodes), the
validated call `connect(1, 0, 0, 0)` returns `CreatesLoop` and leaves the
engine untouched. -/
theorem c3_connect_creates_loop_witness :
    c3_base.connect 1 0 0 0 = (c3_base, .error Error.CreatesLoop) :=
  (c3_connect_creates_loop c3_base 0 1 0 0 (by decide)).2 (by decide)

/-- C8 (amended): for a node whose dirty flag is clear before the call, an
`edit_node_input`/`edit_node_config` whose closure leaves the slot's value
unchanged (as judged by the source's checkpoint comparison) emits no
message, and a call that changes the value emits exactly one `GraphDirtied`
event - a config change additionally handing the engine to
`reconfigure_node`, whose own messages follow that `GraphDirtied`. (A node
left dirty by an earlier edit re-emits `GraphDirtied` even for a no-change
edit; see the counterexample.) -/
theorem c8_edit_emission (e : Engine) (index slot : Nat) (node : Node)
    (f : SlotDef → Value → Value)
    (hn : e.getNode index = some node)
    (hdirty : node.dirty = false) :
    (∀ v sd, node.record.input_values.get? slot = some v →
      node.signature.input slot = some sd →
      (((f sd v).changed_since v.checkpoint).1 = false →
        (e.edit_node_input index slot f).1.msgs = e.msgs) ∧
      (((f sd v).changed_since v.checkpoint).1 = true →
        (e.edit_node_input index slot f).1.msgs =
          e.msgs ++ [Message.event Event.GraphDirtied])) ∧
    (∀ v sd, node.record.config_values.get? slot = some v →
      node.signature.configSlot slot = some sd →
      (((f sd v).changed_since v.checkpoint).1 = false →
        (e.edit_node_config index slot f).1.msgs = e.msgs) ∧
      (((f sd v).changed_since v.checkpoint).1 = true →
        e.edit_node_config index slot f =
          ((e.setNode index (node.edit_config slot f).1).emit
            (.event .GraphDirtied)).reconfigure_node index)) := by
  constructor
  · intro v sd hv hsd
    rcases hcw : (f sd v).changed_since v.checkpoint with ⟨c, w⟩
    have hres : node.edit_input slot f =
        ({ node with
            record := { node.record with
              input_values := node.record.input_values.set slot w },
            dirty := node.dirty || c }, .ok ()) := by
      unfold Node.edit_input
      rw [hv, hsd]
      dsimp only
      rw [hcw]
    constructor
    · intro hch
      subst hch
      unfold Engine.edit_node_input
      rw [hn]
      dsimp only
      rw [hres]
      dsimp only
      simp [Node.is_dirty, hdirty, Engine.setNode]
    · intro hch
      subst hch
      unfold Engine.edit_node_input
      rw [hn]
      dsimp only
      rw [hres]
      dsimp only
      simp [Node.is_dirty, hdirty, Engine.setNode, Engine.emit]
  · intro v sd hv hsd
    rcases hcw : (f sd v).changed_since v.checkpoint with ⟨c, w⟩
    have hres : node.edit_config slot f =
        ({ node with
            record := { node.record with
              config_values := node.record.config_values.set slot w },
            dirty := node.dirty || c }, .ok ()) := by
      unfold Node.edit_config
      rw [hv, hsd]
      dsimp only
      rw [hcw]
    constructor
    · intro hch
      subst hch
      unfold Engine.edit_node_config
      rw [hn]
      dsimp only
      rw [hres]
      dsimp only
      simp [Node.is_dirty, hdirty, Engine.setNode]
    · intro hch
      subst hch
      unfold Engine.edit_node_config
      rw [hn]
      dsimp only
      rw [hres]
      dsimp only
      simp [Node.is_dirty, hdirty]

/-- C8 witness: on a fresh Arithmetic node (dirty flag clear), the
identity edit of input slot 0 emits nothing, and the edit writing 5.0
emits exactly one `GraphDirtied`. -/
theorem c8_edit_emission_witness :
    (c8_base.edit_node_input 0 0 (fun _ v => v)).1.msgs = c8_base.msgs ∧
    (c8_base.edit_node_input 0 0 (set_f32 5)).1.msgs =
      c8_base.msgs ++ [Message.event Event.GraphDirtied] :=
  ⟨((c8_edit_emission c8_base 0 0 c8_node0 (fun _ v => v) (by decide) (by decide)).1
      (Value.F32 0) (mkSlot .F32 "a") (by decide) (by decide)).1 (by decide),
   ((c8_edit_emission c8_base 0 0 c8_node0 (set_f32 5) (by decide) (by decide)).1
      (Value.F32 0) (mkSlot .F32 "a") (by decide) (by decide)).2 (by decide)⟩

/-- C8 counterexample: after a first dirtying edit (input slot 0 set to
5.0), a second `edit_node_input` whose closure is the identity leaves the
slot's value equal to its prior value, yet the call still emits a
`GraphDirtied` event, because emission is gated on the node's persistent
dirty flag, which the first edit left set. -/
theorem c8_counterexample_dirty_reemission :
    ((c8_after1.getNode 0).map (fun n => n.record.input_values.get? 0)) =
      some (some (Value.F32 5)) ∧
    (c8_after1.edit_node_input 0 0 (fun _ v => v)).1.msgs =
      c8_after1.msgs ++ [Message.event Event.GraphDirtied] := by
  decide
